import Mathlib

/-!
Shallow embedding of the decentralized event ticketing canister
(`src/my_rust_project_backend/src/lib.rs`) and verification of its
specification claims.

Modelling conventions:
  * `Principal` (an opaque caller identity on the Internet Computer) is
    modelled as `String`.
  * `u64` / `u32` machine integers are modelled as `Nat`; the step relation
    constrains inputs to their machine ranges, and arithmetic that can wrap
    in a release build carries an explicit `% 2 ^ 64` / `% 2 ^ 32`.
    (The `u64` id counters are modelled without wrap: wrapping them would
    require `2 ^ 64` update calls.)
  * The `BTreeMap`/`HashMap` collections are modelled as association lists
    with first-match lookup and replace-or-append insertion, which preserves
    the maps' key/value semantics.
  * Each `#[update]` canister method becomes a pure function from the global
    state to a result together with the successor state.  `#[query]` methods
    do not persist state on the Internet Computer, so only the four update
    methods appear in the step relation.
-/

namespace Ticketing

abbrev Principal := String

/-- `Event` record, translated field-for-field from the Rust struct. -/
structure Event where
  id : Nat
  name : String
  description : String
  venue : String
  date : Nat
  total_tickets : Nat
  available_tickets : Nat
  price_icp : Nat
  organizer : Principal
  max_tickets_per_user : Nat
  sale_start_time : Nat
  sale_end_time : Nat
  is_active : Bool
  deriving DecidableEq, Repr

/-- `Ticket` record, translated field-for-field from the Rust struct. -/
structure Ticket where
  id : Nat
  event_id : Nat
  owner : Principal
  seat_number : String
  purchase_time : Nat
  is_used : Bool
  verification_code : String
  deriving DecidableEq, Repr

/-- `Purchase` record, translated field-for-field from the Rust struct. -/
structure Purchase where
  id : Nat
  event_id : Nat
  buyer : Principal
  quantity : Nat
  total_amount : Nat
  purchase_time : Nat
  ticket_ids : List Nat
  deriving DecidableEq, Repr

/-- `UserProfile` record, translated field-for-field from the Rust struct. -/
structure UserProfile where
  user_principal : Principal
  purchases : List Nat
  tickets : List Nat
  reputation_score : Nat
  is_verified : Bool
  deriving DecidableEq, Repr

/-- The `TicketingError` enum from the Rust source. -/
inductive TicketingError where
  | EventNotFound
  | InsufficientTickets
  | ExceedsMaxTicketsPerUser
  | SaleNotStarted
  | SaleEnded
  | EventInactive
  | Unauthorized
  | TicketNotFound
  | AlreadyUsed
  | InvalidVerificationCode
  deriving DecidableEq, Repr

/-! ### Association-list maps

`BTreeMap` / `HashMap` are modelled as association lists: `lookup` returns
the first binding of a key, `insertKV` replaces the first binding of the key
in place, or appends a fresh binding at the end. -/

variable {K V : Type} [DecidableEq K]

/-- First-match lookup in an association list (models `map.get(&k)`). -/
def lookup : List (K × V) → K → Option V
  | [], _ => none
  | (k', v') :: rest, k => if k' = k then some v' else lookup rest k

/-- Replace-or-append insertion (models `map.insert(k, v)` / `get_mut`). -/
def insertKV : List (K × V) → K → V → List (K × V)
  | [], k, v => [(k, v)]
  | (k', v') :: rest, k, v =>
      if k' = k then (k, v) :: rest else (k', v') :: insertKV rest k v

/-- Lookup with default `0` (models `map.get(&k).copied().unwrap_or(0)`). -/
def lookup0 (l : List (K × Nat)) (k : K) : Nat := (lookup l k).getD 0

/-! ### Hexadecimal formatting

Rust's `format!("{:08X}-{:08X}", ticket_id, event_id)` renders each id as
upper-case hexadecimal, zero-padded on the left to at least eight digits,
with a dash between the two fields. -/

/-- Upper-case hexadecimal digit character (`0`-`9`, `A`-`F`). -/
def hexDigitChar (n : Nat) : Char :=
  if n < 10 then Char.ofNat (48 + n) else Char.ofNat (55 + n)

/-- Numeric value of a hexadecimal digit character (inverse of
`hexDigitChar` on digits). -/
def hexVal (c : Char) : Nat :=
  if 65 ≤ c.toNat then c.toNat - 55 else c.toNat - 48

/-- Fuel-driven most-significant-first hexadecimal digit expansion. -/
def toHexCore : Nat → Nat → List Char → List Char
  | 0, _, acc => acc
  | fuel + 1, n, acc =>
      if n < 16 then hexDigitChar (n % 16) :: acc
      else toHexCore fuel (n / 16) (hexDigitChar (n % 16) :: acc)

/-- Upper-case hexadecimal digits of `n`, no leading zeros (`0` for zero). -/
def hexDigits (n : Nat) : List Char := toHexCore (n + 1) n []

/-- `{:08X}`: hexadecimal digits left-padded with `0` to at least width 8. -/
def padHex8 (n : Nat) : List Char :=
  List.replicate (8 - (hexDigits n).length) '0' ++ hexDigits n

/-- Parse a hexadecimal digit string back to a number. -/
def fromHex (l : List Char) : Nat :=
  l.foldl (fun a c => 16 * a + hexVal c) 0

/-! ### The canister's global state and update methods -/

/-- `generate_verification_code`, translating
`format!("{:08X}-{:08X}", ticket_id, event_id)`. -/
def generate_verification_code (ticket_id event_id : Nat) : String :=
  String.mk (padHex8 ticket_id ++ '-' :: padHex8 event_id)

/-- `format!("SEAT-{}-{}", event_id, ticket_id)` (decimal rendering). -/
def seatNumber (event_id ticket_id : Nat) : String :=
  "SEAT-" ++ Nat.repr event_id ++ "-" ++ Nat.repr ticket_id

/-- The canister's global state: the four collections held in `thread_local`
`RefCell`s plus the three monotone id counters. -/
structure State where
  events : List (Nat × Event)
  tickets : List (Nat × Ticket)
  purchases : List (Nat × Purchase)
  userProfiles : List (Principal × UserProfile)
  userEventPurchases : List ((Principal × Nat) × Nat)
  eventCounter : Nat
  ticketCounter : Nat
  purchaseCounter : Nat
  deriving DecidableEq, Repr

/-- The state at canister installation: empty maps, zero counters. -/
def initState : State :=
  { events := [], tickets := [], purchases := [], userProfiles := [],
    userEventPurchases := [], eventCounter := 0, ticketCounter := 0,
    purchaseCounter := 0 }

/-- Default profile built by `get_or_create_user_profile` for an unknown user. -/
def defaultProfile (principal : Principal) : UserProfile :=
  { user_principal := principal, purchases := [], tickets := [],
    reputation_score := 100, is_verified := false }

/-- `get_or_create_user_profile` (the profile the caller observes). -/
def get_or_create_user_profile (principal : Principal) (s : State) : UserProfile :=
  (lookup s.userProfiles principal).getD (defaultProfile principal)

/-- `create_event`: assigns the next event id and stores the event with
`available_tickets = total_tickets` and `is_active = true`; performs no
validation and always succeeds. -/
def create_event (caller : Principal) (name description venue : String)
    (date total_tickets price_icp max_tickets_per_user
      sale_start_time sale_end_time : Nat) (s : State) :
    (Except TicketingError Nat) × State :=
  let event_id := s.eventCounter + 1
  let event : Event :=
    { id := event_id, name := name, description := description, venue := venue,
      date := date, total_tickets := total_tickets,
      available_tickets := total_tickets, price_icp := price_icp,
      organizer := caller, max_tickets_per_user := max_tickets_per_user,
      sale_start_time := sale_start_time, sale_end_time := sale_end_time,
      is_active := true }
  (Except.ok event_id,
    { s with eventCounter := event_id,
             events := insertKV s.events event_id event })

/-- The ticket struct minted for `ticket_id` inside the purchase loop. -/
def mkTicket (caller : Principal) (now event_id ticket_id : Nat) : Ticket :=
  { id := ticket_id, event_id := event_id, owner := caller,
    seat_number := seatNumber event_id ticket_id, purchase_time := now,
    is_used := false,
    verification_code := generate_verification_code ticket_id event_id }

/-- The `for i in 0..quantity` ticket-minting loop of `purchase_tickets`:
each iteration increments the ticket counter, inserts a fresh ticket, and
records its id.  Returns the ticket map, the ordered id list, and the final
counter. -/
def mintLoop (caller : Principal) (now event_id : Nat) :
    Nat → List (Nat × Ticket) → Nat → List (Nat × Ticket) × List Nat × Nat
  | 0, tks, tc => (tks, [], tc)
  | q + 1, tks, tc =>
      let ticket_id := tc + 1
      let res := mintLoop caller now event_id q
        (insertKV tks ticket_id (mkTicket caller now event_id ticket_id)) ticket_id
      (res.1, ticket_id :: res.2.1, res.2.2)

/-- `purchase_tickets`: validation checks in source order, then — only after
every check passed — the state mutations.  The `u32` addition in the per-user
cap check and the `u64` multiplication computing `total_amount` carry their
machine wrap-around explicitly. -/
def purchase_tickets (caller : Principal) (now : Nat) (event_id quantity : Nat)
    (s : State) : (Except TicketingError Purchase) × State :=
  match lookup s.events event_id with
  | none => (Except.error TicketingError.EventNotFound, s)
  | some event =>
    if event.is_active = false then (Except.error TicketingError.EventInactive, s)
    else if now < event.sale_start_time then
      (Except.error TicketingError.SaleNotStarted, s)
    else if event.sale_end_time < now then
      (Except.error TicketingError.SaleEnded, s)
    else if event.available_tickets < quantity then
      (Except.error TicketingError.InsufficientTickets, s)
    else
      let current_user_purchases := lookup0 s.userEventPurchases (caller, event_id)
      if event.max_tickets_per_user < (current_user_purchases + quantity) % 2 ^ 32 then
        (Except.error TicketingError.ExceedsMaxTicketsPerUser, s)
      else
        let purchase_id := s.purchaseCounter + 1
        let total_amount := event.price_icp * quantity % 2 ^ 64
        let minted := mintLoop caller now event_id quantity s.tickets s.ticketCounter
        let purchase : Purchase :=
          { id := purchase_id, event_id := event_id, buyer := caller,
            quantity := quantity, total_amount := total_amount,
            purchase_time := now, ticket_ids := minted.2.1 }
        let profile := get_or_create_user_profile caller s
        let profile' :=
          { profile with purchases := profile.purchases ++ [purchase_id],
                         tickets := profile.tickets ++ minted.2.1 }
        let decremented : Event :=
          { event with available_tickets := event.available_tickets - quantity }
        (Except.ok purchase,
          { events := insertKV s.events event_id decremented,
            tickets := minted.1,
            purchases := insertKV s.purchases purchase_id purchase,
            userProfiles := insertKV s.userProfiles caller profile',
            userEventPurchases := insertKV s.userEventPurchases (caller, event_id)
              ((current_user_purchases + quantity) % 2 ^ 32),
            eventCounter := s.eventCounter,
            ticketCounter := minted.2.2,
            purchaseCounter := purchase_id })

/-- `use_ticket`: checks in source order — ticket exists, code matches, not
already used, owning event exists, caller is the organizer — then flips
`is_used`. -/
def use_ticket (caller : Principal) (ticket_id : Nat) (verification_code : String)
    (s : State) : (Except TicketingError Unit) × State :=
  match lookup s.tickets ticket_id with
  | none => (Except.error TicketingError.TicketNotFound, s)
  | some ticket =>
    if ticket.verification_code ≠ verification_code then
      (Except.error TicketingError.InvalidVerificationCode, s)
    else if ticket.is_used then
      (Except.error TicketingError.AlreadyUsed, s)
    else
      match lookup s.events ticket.event_id with
      | none => (Except.error TicketingError.EventNotFound, s)
      | some event =>
        if caller ≠ event.organizer then
          (Except.error TicketingError.Unauthorized, s)
        else
          let used : Ticket := { ticket with is_used := true }
          (Except.ok (), { s with tickets := insertKV s.tickets ticket_id used })

/-- `deactivate_event`: organizer-only one-way `is_active := false`. -/
def deactivate_event (caller : Principal) (event_id : Nat) (s : State) :
    (Except TicketingError Unit) × State :=
  match lookup s.events event_id with
  | none => (Except.error TicketingError.EventNotFound, s)
  | some event =>
    if event.organizer ≠ caller then
      (Except.error TicketingError.Unauthorized, s)
    else
      let deactivated : Event := { event with is_active := false }
      (Except.ok (),
        { s with events := insertKV s.events event_id deactivated })

/-- One state-mutating canister call.  The side conditions record the machine
ranges of the `u32`/`u64` arguments at the Candid boundary. -/
inductive Step : State → State → Prop where
  | createEvent (caller name description venue : String)
      (date total_tickets price_icp max_tickets_per_user
        sale_start_time sale_end_time : Nat) (s : State)
      (hdate : date < 2 ^ 64) (htot : total_tickets < 2 ^ 32)
      (hprice : price_icp < 2 ^ 64) (hmax : max_tickets_per_user < 2 ^ 32)
      (hstart : sale_start_time < 2 ^ 64) (hend : sale_end_time < 2 ^ 64) :
      Step s (create_event caller name description venue date total_tickets
        price_icp max_tickets_per_user sale_start_time sale_end_time s).2
  | purchaseTickets (caller : String) (now event_id quantity : Nat) (s : State)
      (hnow : now < 2 ^ 64) (heid : event_id < 2 ^ 64) (hq : quantity < 2 ^ 32) :
      Step s (purchase_tickets caller now event_id quantity s).2
  | useTicket (caller : String) (ticket_id : Nat) (code : String) (s : State)
      (htid : ticket_id < 2 ^ 64) :
      Step s (use_ticket caller ticket_id code s).2
  | deactivateEvent (caller : String) (event_id : Nat) (s : State)
      (heid : event_id < 2 ^ 64) :
      Step s (deactivate_event caller event_id s).2

/-- States reachable from canister installation by any sequence of calls. -/
inductive Reachable : State → Prop where
  | init : Reachable initState
  | step {s s' : State} : Reachable s → Step s s' → Reachable s'

/-- Any number (possibly zero) of further calls. -/
inductive StepStar : State → State → Prop where
  | refl (s : State) : StepStar s s
  | tail {s t u : State} : StepStar s t → Step t u → StepStar s u

/-! ### Derived sums over the purchase collection -/

/-- Total quantity purchased for an event across all `Purchase` records. -/
def eventSold (ps : List (Nat × Purchase)) (event_id : Nat) : Nat :=
  (ps.map fun kp => if kp.2.event_id = event_id then kp.2.quantity else 0).sum

/-- Total quantity purchased by one user for one event across all
`Purchase` records. -/
def userEventSold (ps : List (Nat × Purchase)) (u : Principal)
    (event_id : Nat) : Nat :=
  (ps.map fun kp =>
    if kp.2.buyer = u ∧ kp.2.event_id = event_id then kp.2.quantity else 0).sum

/-- The `Purchase` record returned and stored by a successful
`purchase_tickets` call (named for use in the success characterization). -/
def purchaseRecord (caller : Principal) (now event_id quantity : Nat)
    (s : State) (event : Event) : Purchase :=
  { id := s.purchaseCounter + 1, event_id := event_id, buyer := caller,
    quantity := quantity,
    total_amount := event.price_icp * quantity % 2 ^ 64,
    purchase_time := now,
    ticket_ids :=
      (mintLoop caller now event_id quantity s.tickets s.ticketCounter).2.1 }

/-- The buyer's profile after a successful `purchase_tickets` call. -/
def purchaseProfile (caller : Principal) (now event_id quantity : Nat)
    (s : State) : UserProfile :=
  { get_or_create_user_profile caller s with
    purchases := (get_or_create_user_profile caller s).purchases ++
      [s.purchaseCounter + 1],
    tickets := (get_or_create_user_profile caller s).tickets ++
      (mintLoop caller now event_id quantity s.tickets s.ticketCounter).2.1 }

/-- The successor state of a successful `purchase_tickets` call. -/
def purchaseSuccessState (caller : Principal) (now event_id quantity : Nat)
    (s : State) (event : Event) : State :=
  { events := insertKV s.events event_id
      ({ event with available_tickets := event.available_tickets - quantity }),
    tickets := (mintLoop caller now event_id quantity s.tickets s.ticketCounter).1,
    purchases := insertKV s.purchases (s.purchaseCounter + 1)
      (purchaseRecord caller now event_id quantity s event),
    userProfiles := insertKV s.userProfiles caller
      (purchaseProfile caller now event_id quantity s),
    userEventPurchases := insertKV s.userEventPurchases (caller, event_id)
      ((lookup0 s.userEventPurchases (caller, event_id) + quantity) % 2 ^ 32),
    eventCounter := s.eventCounter,
    ticketCounter :=
      (mintLoop caller now event_id quantity s.tickets s.ticketCounter).2.2,
    purchaseCounter := s.purchaseCounter + 1 }

/-- The successor state of a successful `use_ticket` call. -/
def useSuccessState (s : State) (ticket_id : Nat) (ticket : Ticket) : State :=
  let used : Ticket := { ticket with is_used := true }
  { s with tickets := insertKV s.tickets ticket_id used }

/-! ### Concrete scenario states (used to instantiate the theorems) -/

/-- One event: organizer `org`, 10 tickets, price 100, cap 4, window 0-100. -/
def s1 : State := (create_event "org" "n" "d" "v" 5 10 100 4 0 100 initState).2

/-- `bob` buys 3 tickets at time 1. -/
def s2 : State := (purchase_tickets "bob" 1 1 3 s1).2

/-- The organizer redeems ticket 1. -/
def s3 : State := (use_ticket "org" 1 "00000001-00000001" s2).2

/-- `bob` buys one more ticket at time 2. -/
def s4 : State := (purchase_tickets "bob" 2 1 1 s3).2

/-- `bob` purchases quantity 0 at time 1 (accepted by the code). -/
def sZero : State := (purchase_tickets "bob" 1 1 0 s1).2

/-- One event whose price is `2 ^ 63` e8s (a valid `u64`). -/
def sBig : State :=
  (create_event "org" "n" "d" "v" 0 5 9223372036854775808 5 0 100 initState).2

/-- The stored event of `s1`. -/
def ev1 : Event :=
  { id := 1, name := "n", description := "d", venue := "v", date := 5,
    total_tickets := 10, available_tickets := 10, price_icp := 100,
    organizer := "org", max_tickets_per_user := 4, sale_start_time := 0,
    sale_end_time := 100, is_active := true }

/-- The stored event of `s2` (seven tickets left). -/
def ev2 : Event := { ev1 with available_tickets := 7 }

/-- Ticket 1 as minted in `s2`. -/
def tk1 : Ticket :=
  { id := 1, event_id := 1, owner := "bob", seat_number := "SEAT-1-1",
    purchase_time := 1, is_used := false,
    verification_code := "00000001-00000001" }

/-- Ticket 1 after redemption. -/
def tk1u : Ticket := { tk1 with is_used := true }

/-- Ticket 2 as minted in `s2`. -/
def tk2 : Ticket :=
  { id := 2, event_id := 1, owner := "bob", seat_number := "SEAT-1-2",
    purchase_time := 1, is_used := false,
    verification_code := "00000002-00000001" }

/-- The purchase record stored in `s2`. -/
def p1 : Purchase :=
  { id := 1, event_id := 1, buyer := "bob", quantity := 3, total_amount := 300,
    purchase_time := 1, ticket_ids := [1, 2, 3] }

/-- The quantity-zero purchase record stored in `sZero`. -/
def p0q : Purchase :=
  { id := 1, event_id := 1, buyer := "bob", quantity := 0, total_amount := 0,
    purchase_time := 1, ticket_ids := [] }

/-- The stored event of `sBig`. -/
def evBig : Event :=
  { id := 1, name := "n", description := "d", venue := "v", date := 0,
    total_tickets := 5, available_tickets := 5,
    price_icp := 9223372036854775808, organizer := "org",
    max_tickets_per_user := 5, sale_start_time := 0, sale_end_time := 100,
    is_active := true }

/-- The purchase of two price-`2 ^ 63` tickets: `total_amount` wraps to 0. -/
def pBig : Purchase :=
  { id := 1, event_id := 1, buyer := "bob", quantity := 2, total_amount := 0,
    purchase_time := 1, ticket_ids := [1, 2] }

/-- The master state invariant, established at installation and preserved by
every update call.  It packages the spec's invariants I1-I6 together with the
bookkeeping facts (key bounds, key/field agreement, key uniqueness) needed to
push them through each operation. -/
structure Inv (s : State) : Prop where
  eventsKeyLe : ∀ kv ∈ s.events, kv.1 ≤ s.eventCounter
  eventsKeyId : ∀ kv ∈ s.events, (kv.2 : Event).id = kv.1
  eventsTotalLt : ∀ kv ∈ s.events, (kv.2 : Event).total_tickets < 2 ^ 32
  conservation : ∀ kv ∈ s.events,
    (kv.2 : Event).available_tickets + eventSold s.purchases kv.1 =
      (kv.2 : Event).total_tickets
  capOk : ∀ (u : Principal), ∀ kv ∈ s.events,
    userEventSold s.purchases u kv.1 ≤ (kv.2 : Event).max_tickets_per_user
  ticketsKeyLe : ∀ kv ∈ s.tickets, kv.1 ≤ s.ticketCounter
  ticketsKeyId : ∀ kv ∈ s.tickets, (kv.2 : Ticket).id = kv.1
  ticketsCode : ∀ kv ∈ s.tickets,
    (kv.2 : Ticket).verification_code =
      generate_verification_code kv.1 (kv.2 : Ticket).event_id
  ticketsEvent : ∀ kv ∈ s.tickets,
    ∃ ev, lookup s.events (kv.2 : Ticket).event_id = some ev
  purchasesKeyLe : ∀ kv ∈ s.purchases, kv.1 ≤ s.purchaseCounter
  purchasesEvent : ∀ kv ∈ s.purchases,
    ∃ ev, lookup s.events (kv.2 : Purchase).event_id = some ev
  countEq : ∀ (u : Principal) (e : Nat),
    lookup0 s.userEventPurchases (u, e) = userEventSold s.purchases u e
  purchaseLen : ∀ kv ∈ s.purchases,
    (kv.2 : Purchase).ticket_ids.length = (kv.2 : Purchase).quantity
  purchaseOwn : ∀ kv ∈ s.purchases, ∀ tid ∈ (kv.2 : Purchase).ticket_ids,
    ∃ t, lookup s.tickets tid = some t ∧ t.owner = (kv.2 : Purchase).buyer ∧
      t.event_id = (kv.2 : Purchase).event_id ∧
      t.purchase_time = (kv.2 : Purchase).purchase_time
  purchaseTidLe : ∀ kv ∈ s.purchases, ∀ tid ∈ (kv.2 : Purchase).ticket_ids,
    tid ≤ s.ticketCounter
  purchaseNodup : ∀ kv ∈ s.purchases, (kv.2 : Purchase).ticket_ids.Nodup
  purchaseDisjoint : ∀ kv kv', kv ∈ s.purchases → kv' ∈ s.purchases →
    kv.1 ≠ kv'.1 → ∀ tid ∈ (kv.2 : Purchase).ticket_ids,
      tid ∉ (kv'.2 : Purchase).ticket_ids
  keysNodupE : (s.events.map Prod.fst).Nodup
  keysNodupT : (s.tickets.map Prod.fst).Nodup
  keysNodupP : (s.purchases.map Prod.fst).Nodup

/-! ### Lemmas -/

theorem lookup_insertKV (l : List (K × V)) (k : K) (v : V) (k' : K) :
    lookup (insertKV l k v) k' = if k' = k then some v else lookup l k' := by
  induction l with
  | nil =>
      by_cases h : k' = k
      · subst h; simp [insertKV, lookup]
      · have h' : ¬k = k' := fun hh => h hh.symm
        simp [insertKV, lookup, h, h']
  | cons hd tl ih =>
      obtain ⟨a, b⟩ := hd
      by_cases hak : a = k
      · subst hak
        by_cases h : k' = a
        · subst h; simp [insertKV, lookup]
        · have h' : ¬a = k' := fun hh => h hh.symm
          simp [insertKV, lookup, h, h']
      · by_cases h : k' = a
        · have h2 : ¬k' = k := fun hh => hak (h.symm.trans hh)
          simp [insertKV, lookup, hak, h2, h.symm]
        · have h' : ¬a = k' := fun hh => h hh.symm
          simp [insertKV, lookup, hak, h, h', ih]

theorem mem_of_lookup {l : List (K × V)} {k : K} {v : V}
    (h : lookup l k = some v) : (k, v) ∈ l := by
  induction l with
  | nil => simp [lookup] at h
  | cons hd tl ih =>
      obtain ⟨a, b⟩ := hd
      by_cases hak : a = k
      · subst hak
        simp [lookup] at h
        simp [h]
      · simp [lookup, hak] at h
        exact List.mem_cons_of_mem _ (ih h)

theorem lookup_eq_none_of_forall {l : List (K × V)} {k : K}
    (h : ∀ kv ∈ l, kv.1 ≠ k) : lookup l k = none := by
  induction l with
  | nil => rfl
  | cons hd tl ih =>
      obtain ⟨a, b⟩ := hd
      have ha : a ≠ k := h (a, b) (by simp)
      simp [lookup, ha]
      exact ih fun kv hkv => h kv (List.mem_cons_of_mem _ hkv)

theorem insertKV_of_fresh {l : List (K × V)} {k : K} (v : V)
    (h : ∀ kv ∈ l, kv.1 ≠ k) : insertKV l k v = l ++ [(k, v)] := by
  induction l with
  | nil => rfl
  | cons hd tl ih =>
      obtain ⟨a, b⟩ := hd
      have ha : a ≠ k := h (a, b) (by simp)
      simp [insertKV, ha]
      exact ih fun kv hkv => h kv (List.mem_cons_of_mem _ hkv)

theorem mem_insertKV {l : List (K × V)} {k : K} {v : V} {kv : K × V}
    (hnd : (l.map Prod.fst).Nodup)
    (h : kv ∈ insertKV l k v) : kv = (k, v) ∨ (kv ∈ l ∧ kv.1 ≠ k) := by
  induction l with
  | nil => simp [insertKV] at h; simp [h]
  | cons hd tl ih =>
      obtain ⟨a, b⟩ := hd
      simp only [List.map_cons, List.nodup_cons] at hnd
      by_cases hak : a = k
      · subst hak
        simp [insertKV] at h
        rcases h with h | h
        · left; simp [h]
        · right
          refine ⟨List.mem_cons_of_mem _ h, ?_⟩
          intro hk
          exact hnd.1 (hk ▸ List.mem_map_of_mem Prod.fst h)
      · simp [insertKV, hak] at h
        rcases h with h | h
        · right
          exact ⟨by simp [h], by simp [h, hak]⟩
        · rcases ih hnd.2 h with h' | h'
          · exact Or.inl h'
          · exact Or.inr ⟨List.mem_cons_of_mem _ h'.1, h'.2⟩

theorem keys_insertKV_of_mem {l : List (K × V)} {k : K} (v : V)
    (h : k ∈ l.map Prod.fst) :
    (insertKV l k v).map Prod.fst = l.map Prod.fst := by
  induction l with
  | nil => simp at h
  | cons hd tl ih =>
      obtain ⟨a, b⟩ := hd
      by_cases hak : a = k
      · subst hak; simp [insertKV]
      · simp only [List.map_cons, List.mem_cons] at h
        rcases h with h | h
        · exact absurd h.symm hak
        · simp [insertKV, hak, ih h]

theorem lookup_append_left {l₁ l₂ : List (K × V)} {k : K} {v : V}
    (h : lookup l₁ k = some v) : lookup (l₁ ++ l₂) k = some v := by
  induction l₁ with
  | nil => simp [lookup] at h
  | cons hd tl ih =>
      obtain ⟨a, b⟩ := hd
      by_cases hak : a = k <;> simp [lookup, hak] at h ⊢ <;> simp_all [ih]

theorem lookup_append_right {l₁ l₂ : List (K × V)} {k : K}
    (h : ∀ kv ∈ l₁, kv.1 ≠ k) : lookup (l₁ ++ l₂) k = lookup l₂ k := by
  induction l₁ with
  | nil => rfl
  | cons hd tl ih =>
      obtain ⟨a, b⟩ := hd
      have ha : a ≠ k := h (a, b) (by simp)
      simp [lookup, ha]
      exact ih fun kv hkv => h kv (List.mem_cons_of_mem _ hkv)

theorem hexVal_hexDigitChar : ∀ m : Fin 16, hexVal (hexDigitChar m.val) = m.val := by
  decide

theorem hexVal_hexDigitChar' (m : Nat) (h : m < 16) :
    hexVal (hexDigitChar m) = m :=
  hexVal_hexDigitChar ⟨m, h⟩

theorem hexDigitChar_ne_dash : ∀ m : Fin 16, hexDigitChar m.val ≠ '-' := by
  decide

theorem toHexCore_append (fuel : Nat) :
    ∀ n acc, toHexCore fuel n acc = toHexCore fuel n [] ++ acc := by
  induction fuel with
  | zero => intro n acc; rfl
  | succ f ih =>
      intro n acc
      by_cases h : n < 16
      · simp [toHexCore, h]
      · simp only [toHexCore, h, if_false]
        rw [ih (n / 16) (hexDigitChar (n % 16) :: acc),
            ih (n / 16) [hexDigitChar (n % 16)]]
        simp

theorem toHexCore_mem (fuel : Nat) :
    ∀ n acc c, c ∈ toHexCore fuel n acc →
      c ∈ acc ∨ ∃ m : Fin 16, c = hexDigitChar m.val := by
  induction fuel with
  | zero => intro n acc c h; exact Or.inl h
  | succ f ih =>
      intro n acc c h
      by_cases hn : n < 16
      · simp [toHexCore, hn] at h
        rcases h with h | h
        · exact Or.inr ⟨⟨n % 16, Nat.mod_lt _ (by omega)⟩, h⟩
        · exact Or.inl h
      · simp only [toHexCore, hn, if_false] at h
        rcases ih (n / 16) _ c h with hmem | hex
        · rcases List.mem_cons.mp hmem with heq | hacc
          · exact Or.inr ⟨⟨n % 16, Nat.mod_lt _ (by omega)⟩, heq⟩
          · exact Or.inl hacc
        · exact Or.inr hex

theorem fromHex_toHexCore (fuel : Nat) :
    ∀ n a, n < fuel →
      List.foldl (fun a c => 16 * a + hexVal c) a (toHexCore fuel n []) =
        a * 16 ^ (toHexCore fuel n []).length + n := by
  induction fuel with
  | zero => intro n a h; omega
  | succ f ih =>
      intro n a h
      by_cases hn : n < 16
      · simp only [toHexCore, hn, if_true, List.foldl_cons, List.foldl_nil,
          List.length_cons, List.length_nil, Nat.mod_eq_of_lt hn,
          hexVal_hexDigitChar' n hn]
        ring
      · have hdiv_lt : n / 16 < n := Nat.div_lt_self (by omega) (by omega)
        have hdiv_f : n / 16 < f := by omega
        simp only [toHexCore, hn, if_false]
        rw [toHexCore_append f (n / 16) [hexDigitChar (n % 16)]]
        rw [List.foldl_append, ih (n / 16) a hdiv_f]
        simp only [List.foldl_cons, List.foldl_nil, List.length_append,
          List.length_cons, List.length_nil,
          hexVal_hexDigitChar' (n % 16) (Nat.mod_lt _ (by omega))]
        have hdm : 16 * (n / 16) + n % 16 = n := Nat.div_add_mod n 16
        have key : 16 * (a * 16 ^ (toHexCore f (n / 16) []).length + n / 16) + n % 16 =
            a * 16 ^ ((toHexCore f (n / 16) []).length + (0 + 1)) +
              (16 * (n / 16) + n % 16) := by
          ring
        rw [key, hdm]

theorem fromHex_hexDigits (n : Nat) : fromHex (hexDigits n) = n := by
  unfold fromHex hexDigits
  rw [fromHex_toHexCore (n + 1) n 0 (by omega)]
  simp

theorem foldl_replicate_zero (k : Nat) :
    List.foldl (fun a c => 16 * a + hexVal c) 0 (List.replicate k '0') = 0 := by
  induction k with
  | zero => rfl
  | succ m ih =>
      rw [List.replicate_succ, List.foldl_cons]
      have h0 : hexVal '0' = 0 := by decide
      simpa [h0] using ih

theorem fromHex_padHex8 (n : Nat) : fromHex (padHex8 n) = n := by
  unfold fromHex padHex8
  rw [List.foldl_append, foldl_replicate_zero]
  exact fromHex_hexDigits n

theorem padHex8_injective {a b : Nat} (h : padHex8 a = padHex8 b) : a = b := by
  have := fromHex_padHex8 a
  rw [h, fromHex_padHex8] at this
  omega

theorem padHex8_no_dash {n : Nat} {c : Char} (h : c ∈ padHex8 n) : c ≠ '-' := by
  unfold padHex8 at h
  rcases List.mem_append.mp h with h' | h'
  · have := List.eq_of_mem_replicate h'
    subst this
    decide
  · rcases toHexCore_mem (n + 1) n [] c h' with h'' | h''
    · simp at h''
    · obtain ⟨m, hm⟩ := h''
      subst hm
      exact hexDigitChar_ne_dash m

theorem Reachable.of_stepStar {s s' : State} (hs : Reachable s)
    (h : StepStar s s') : Reachable s' := by
  induction h with
  | refl => exact hs
  | tail _ hstep ih => exact Reachable.step ih hstep

theorem userEventSold_le_eventSold (ps : List (Nat × Purchase))
    (u : Principal) (event_id : Nat) :
    userEventSold ps u event_id ≤ eventSold ps event_id := by
  unfold userEventSold eventSold
  refine List.sum_le_sum ?_
  intro kp _
  by_cases h1 : kp.2.buyer = u ∧ kp.2.event_id = event_id
  · simp [h1, h1.2]
  · simp [h1]

theorem eventSold_append (ps : List (Nat × Purchase)) (kp : Nat × Purchase)
    (event_id : Nat) :
    eventSold (ps ++ [kp]) event_id =
      eventSold ps event_id +
        (if kp.2.event_id = event_id then kp.2.quantity else 0) := by
  simp [eventSold]

theorem userEventSold_append (ps : List (Nat × Purchase)) (kp : Nat × Purchase)
    (u : Principal) (event_id : Nat) :
    userEventSold (ps ++ [kp]) u event_id =
      userEventSold ps u event_id +
        (if kp.2.buyer = u ∧ kp.2.event_id = event_id then kp.2.quantity else 0) := by
  simp [userEventSold]

/-- Split a dash-separated concatenation whose left parts contain no dash. -/
theorem append_dash_cancel :
    ∀ (l₁ l₂ r₁ r₂ : List Char),
      (∀ c ∈ l₁, c ≠ '-') → (∀ c ∈ l₂, c ≠ '-') →
      l₁ ++ '-' :: r₁ = l₂ ++ '-' :: r₂ → l₁ = l₂ ∧ r₁ = r₂ := by
  intro l₁
  induction l₁ with
  | nil =>
      intro l₂ r₁ r₂ _ h₂ heq
      cases l₂ with
      | nil => simpa using heq
      | cons x xs =>
          simp at heq
          exact absurd heq.1.symm (h₂ x (by simp))
  | cons x xs ih =>
      intro l₂ r₁ r₂ h₁ h₂ heq
      cases l₂ with
      | nil =>
          simp at heq
          exact absurd heq.1 (h₁ x (by simp))
      | cons y ys =>
          simp at heq
          obtain ⟨hxy, htail⟩ := heq
          have := ih ys r₁ r₂ (fun c hc => h₁ c (List.mem_cons_of_mem _ hc))
            (fun c hc => h₂ c (List.mem_cons_of_mem _ hc)) htail
          exact ⟨by simp [hxy, this.1], this.2⟩

/-- Codes of tickets with different ids differ (the ticket-id field of the
code determines the ticket id). -/
theorem generate_verification_code_inj {t e t' e' : Nat}
    (h : generate_verification_code t e = generate_verification_code t' e') :
    t = t' := by
  unfold generate_verification_code at h
  have hdata : padHex8 t ++ '-' :: padHex8 e = padHex8 t' ++ '-' :: padHex8 e' :=
    congrArg String.data h
  have := append_dash_cancel (padHex8 t) (padHex8 t') (padHex8 e) (padHex8 e')
    (fun c hc => padHex8_no_dash hc) (fun c hc => padHex8_no_dash hc) hdata
  exact padHex8_injective this.1

theorem eventSold_eq_zero {ps : List (Nat × Purchase)} {e : Nat}
    (h : ∀ kv ∈ ps, (kv.2 : Purchase).event_id ≠ e) : eventSold ps e = 0 := by
  unfold eventSold
  rw [List.sum_eq_zero]
  intro x hx
  simp only [List.mem_map] at hx
  obtain ⟨kv, hkv, hxeq⟩ := hx
  simp [h kv hkv] at hxeq
  omega

theorem userEventSold_eq_zero {ps : List (Nat × Purchase)} {u : Principal}
    {e : Nat} (h : ∀ kv ∈ ps, (kv.2 : Purchase).event_id ≠ e) :
    userEventSold ps u e = 0 := by
  unfold userEventSold
  rw [List.sum_eq_zero]
  intro x hx
  simp only [List.mem_map] at hx
  obtain ⟨kv, hkv, hxeq⟩ := hx
  simp [h kv hkv] at hxeq
  omega

omit [DecidableEq K] in
theorem nodup_keys_append {l : List (K × V)} {k : K} (v : V)
    (hnd : (l.map Prod.fst).Nodup) (hfresh : ∀ kv ∈ l, kv.1 ≠ k) :
    ((l ++ [(k, v)]).map Prod.fst).Nodup := by
  rw [List.map_append]
  refine List.Nodup.append hnd (by simp) ?_
  intro a ha hb
  simp only [List.map_cons, List.map_nil, List.mem_singleton] at hb
  simp only [List.mem_map] at ha
  obtain ⟨kv, hkv, hkveq⟩ := ha
  exact hfresh kv hkv (hkveq.trans hb)

theorem lookup_range_map {W : Type} (g : Nat → W) (tc : Nat) :
    ∀ (q k : Nat), tc < k → k ≤ tc + q →
      lookup ((List.range q).map fun i => (tc + 1 + i, g (tc + 1 + i))) k =
        some (g k) := by
  intro q
  induction q with
  | zero => intro k h1 h2; omega
  | succ p ih =>
      intro k h1 h2
      rw [List.range_succ, List.map_append]
      by_cases hk : k ≤ tc + p
      · exact lookup_append_left (ih k h1 hk)
      · have hkp : k = tc + 1 + p := by omega
        rw [lookup_append_right]
        · simp [lookup, hkp]
        · intro kv hkv
          simp only [List.mem_map, List.mem_range] at hkv
          obtain ⟨i, hi, hkveq⟩ := hkv
          rw [← hkveq]
          simp
          omega

theorem lookup_range_map_none {W : Type} (g : Nat → W) (tc q k : Nat)
    (h : k ≤ tc ∨ tc + q < k) :
    lookup ((List.range q).map fun i => (tc + 1 + i, g (tc + 1 + i))) k = none := by
  apply lookup_eq_none_of_forall
  intro kv hkv
  simp only [List.mem_map, List.mem_range] at hkv
  obtain ⟨i, hi, hkveq⟩ := hkv
  rw [← hkveq]
  simp
  omega

/-- Explicit characterization of the ticket-minting loop: starting from a
ticket map whose keys are at most the counter, it appends `q` fresh tickets
with consecutive ids and returns those ids in order. -/
theorem mintLoop_eq (caller : Principal) (now event_id : Nat) :
    ∀ (q : Nat) (tks : List (Nat × Ticket)) (tc : Nat),
      (∀ kv ∈ tks, kv.1 ≤ tc) →
      mintLoop caller now event_id q tks tc =
        (tks ++ (List.range q).map
            (fun i => (tc + 1 + i, mkTicket caller now event_id (tc + 1 + i))),
          (List.range q).map (fun i => tc + 1 + i), tc + q) := by
  intro q
  induction q with
  | zero => intro tks tc h; simp [mintLoop]
  | succ p ih =>
      intro tks tc h
      have hfresh : ∀ kv ∈ tks, kv.1 ≠ tc + 1 := by
        intro kv hkv
        have := h kv hkv
        omega
      have h' : ∀ kv ∈ tks ++ [(tc + 1, mkTicket caller now event_id (tc + 1))],
          kv.1 ≤ tc + 1 := by
        intro kv hkv
        rcases List.mem_append.mp hkv with h1 | h1
        · have := h kv h1; omega
        · simp at h1; simp [h1]
      simp only [mintLoop]
      rw [insertKV_of_fresh _ hfresh, ih _ _ h']
      have hmap : ∀ (W : Type) (f : Nat → W),
          (List.range (p + 1)).map f = f 0 :: (List.range p).map (f ∘ Nat.succ) := by
        intro W f
        rw [List.range_succ_eq_map, List.map_cons, List.map_map]
      have hids : (List.range (p + 1)).map (fun i => tc + 1 + i) =
          (tc + 1) :: (List.range p).map (fun i => tc + 1 + 1 + i) := by
        rw [hmap]
        refine congrArg _ ?_
        refine List.map_congr_left ?_
        intro i _
        simp only [Function.comp]
        omega
      have htks : (List.range (p + 1)).map
            (fun i => (tc + 1 + i, mkTicket caller now event_id (tc + 1 + i))) =
          (tc + 1, mkTicket caller now event_id (tc + 1)) ::
            (List.range p).map
              (fun i => (tc + 1 + 1 + i, mkTicket caller now event_id (tc + 1 + 1 + i))) := by
        rw [hmap]
        refine congrArg _ ?_
        refine List.map_congr_left ?_
        intro i _
        have harith : tc + 1 + (i + 1) = tc + 1 + 1 + i := by omega
        simp only [Function.comp, Nat.succ_eq_add_one, harith]
      rw [hids, htks]
      refine Prod.ext ?_ (Prod.ext ?_ ?_) <;> simp
      omega

/-! ### Preservation of the invariant -/

theorem inv_init : Inv initState := by
  constructor <;>
    simp [initState, lookup0, lookup, userEventSold, eventSold]

theorem inv_create {s : State} (hinv : Inv s)
    (caller name description venue : String)
    (date total_tickets price_icp max_tickets_per_user
      sale_start_time sale_end_time : Nat)
    (htot : total_tickets < 2 ^ 32) :
    Inv (create_event caller name description venue date total_tickets
      price_icp max_tickets_per_user sale_start_time sale_end_time s).2 := by
  set eid := s.eventCounter + 1 with heid
  have hfresh : ∀ kv ∈ s.events, kv.1 ≠ eid := by
    intro kv hkv
    have := hinv.eventsKeyLe kv hkv
    omega
  have hpev : ∀ kv ∈ s.purchases, (kv.2 : Purchase).event_id ≠ eid := by
    intro kv hkv
    obtain ⟨ev, hev⟩ := hinv.purchasesEvent kv hkv
    have := hinv.eventsKeyLe _ (mem_of_lookup hev)
    simp at this
    omega
  simp only [create_event, insertKV_of_fresh _ hfresh]
  constructor
  case eventsKeyLe =>
    intro kv hkv
    rcases List.mem_append.mp hkv with h | h
    · have := hinv.eventsKeyLe kv h; simp; omega
    · simp at h; simp [h]
  case eventsKeyId =>
    intro kv hkv
    rcases List.mem_append.mp hkv with h | h
    · exact hinv.eventsKeyId kv h
    · simp at h; simp [h]
  case eventsTotalLt =>
    intro kv hkv
    rcases List.mem_append.mp hkv with h | h
    · exact hinv.eventsTotalLt kv h
    · simp at h; simp [h]; omega
  case conservation =>
    intro kv hkv
    rcases List.mem_append.mp hkv with h | h
    · exact hinv.conservation kv h
    · simp at h
      simp [h, eventSold_eq_zero hpev]
  case capOk =>
    intro u kv hkv
    rcases List.mem_append.mp hkv with h | h
    · exact hinv.capOk u kv h
    · simp at h
      simp [h, userEventSold_eq_zero hpev]
  case ticketsKeyLe => exact hinv.ticketsKeyLe
  case ticketsKeyId => exact hinv.ticketsKeyId
  case ticketsCode => exact hinv.ticketsCode
  case ticketsEvent =>
    intro kv hkv
    obtain ⟨ev, hev⟩ := hinv.ticketsEvent kv hkv
    exact ⟨ev, lookup_append_left hev⟩
  case purchasesKeyLe => exact hinv.purchasesKeyLe
  case purchasesEvent =>
    intro kv hkv
    obtain ⟨ev, hev⟩ := hinv.purchasesEvent kv hkv
    exact ⟨ev, lookup_append_left hev⟩
  case countEq => exact hinv.countEq
  case purchaseLen => exact hinv.purchaseLen
  case purchaseOwn => exact hinv.purchaseOwn
  case purchaseTidLe => exact hinv.purchaseTidLe
  case purchaseNodup => exact hinv.purchaseNodup
  case purchaseDisjoint => exact hinv.purchaseDisjoint
  case keysNodupE => exact nodup_keys_append _ hinv.keysNodupE hfresh
  case keysNodupT => exact hinv.keysNodupT
  case keysNodupP => exact hinv.keysNodupP

theorem inv_deactivate {s : State} (hinv : Inv s) (caller : String)
    (event_id : Nat) : Inv (deactivate_event caller event_id s).2 := by
  unfold deactivate_event
  split
  · exact hinv
  rename_i event hl
  split
  · exact hinv
  rename_i hauth
  simp only []
  have hmem := mem_of_lookup hl
  have hkeys : event_id ∈ s.events.map Prod.fst :=
    List.mem_map_of_mem Prod.fst hmem
  have hmemIns : ∀ kv ∈ insertKV s.events event_id
      ({ event with is_active := false }),
      kv = (event_id, ({ event with is_active := false } : Event)) ∨
        (kv ∈ s.events ∧ kv.1 ≠ event_id) :=
    fun kv hkv => mem_insertKV hinv.keysNodupE hkv
  constructor
  case eventsKeyLe =>
    intro kv hkv
    rcases hmemIns kv hkv with h | h
    · have := hinv.eventsKeyLe _ hmem
      simp [h]
      simp at this
      omega
    · exact hinv.eventsKeyLe kv h.1
  case eventsKeyId =>
    intro kv hkv
    rcases hmemIns kv hkv with h | h
    · have := hinv.eventsKeyId _ hmem
      simp at this
      simp [h, this]
    · exact hinv.eventsKeyId kv h.1
  case eventsTotalLt =>
    intro kv hkv
    rcases hmemIns kv hkv with h | h
    · have := hinv.eventsTotalLt _ hmem
      simp at this
      simp [h, this]
    · exact hinv.eventsTotalLt kv h.1
  case conservation =>
    intro kv hkv
    rcases hmemIns kv hkv with h | h
    · have := hinv.conservation _ hmem
      simp at this
      simp [h, this]
    · exact hinv.conservation kv h.1
  case capOk =>
    intro u kv hkv
    rcases hmemIns kv hkv with h | h
    · have := hinv.capOk u _ hmem
      simp at this
      simp [h, this]
    · exact hinv.capOk u kv h.1
  case ticketsKeyLe => exact hinv.ticketsKeyLe
  case ticketsKeyId => exact hinv.ticketsKeyId
  case ticketsCode => exact hinv.ticketsCode
  case ticketsEvent =>
    intro kv hkv
    obtain ⟨ev, hev⟩ := hinv.ticketsEvent kv hkv
    rw [lookup_insertKV]
    by_cases he : (kv.2 : Ticket).event_id = event_id
    · exact ⟨{ event with is_active := false }, by simp [he]⟩
    · exact ⟨ev, by simp [he, hev]⟩
  case purchasesKeyLe => exact hinv.purchasesKeyLe
  case purchasesEvent =>
    intro kv hkv
    obtain ⟨ev, hev⟩ := hinv.purchasesEvent kv hkv
    rw [lookup_insertKV]
    by_cases he : (kv.2 : Purchase).event_id = event_id
    · exact ⟨{ event with is_active := false }, by simp [he]⟩
    · exact ⟨ev, by simp [he, hev]⟩
  case countEq => exact hinv.countEq
  case purchaseLen => exact hinv.purchaseLen
  case purchaseOwn => exact hinv.purchaseOwn
  case purchaseTidLe => exact hinv.purchaseTidLe
  case purchaseNodup => exact hinv.purchaseNodup
  case purchaseDisjoint => exact hinv.purchaseDisjoint
  case keysNodupE =>
    rw [keys_insertKV_of_mem _ hkeys]
    exact hinv.keysNodupE
  case keysNodupT => exact hinv.keysNodupT
  case keysNodupP => exact hinv.keysNodupP

theorem inv_use {s : State} (hinv : Inv s) (caller : String) (ticket_id : Nat)
    (code : String) : Inv (use_ticket caller ticket_id code s).2 := by
  unfold use_ticket
  split
  · exact hinv
  rename_i ticket hl
  split
  · exact hinv
  rename_i hcode
  split
  · exact hinv
  rename_i hused
  split
  · exact hinv
  rename_i event hev
  split
  · exact hinv
  rename_i hauth
  simp only []
  have hmem := mem_of_lookup hl
  have htid := hinv.ticketsKeyId _ hmem
  simp only [] at htid
  have hkeys : ticket_id ∈ s.tickets.map Prod.fst :=
    List.mem_map_of_mem Prod.fst hmem
  have hmemIns : ∀ kv ∈ insertKV s.tickets ticket_id
      ({ ticket with is_used := true }),
      kv = (ticket_id, ({ ticket with is_used := true } : Ticket)) ∨
        (kv ∈ s.tickets ∧ kv.1 ≠ ticket_id) :=
    fun kv hkv => mem_insertKV hinv.keysNodupT hkv
  constructor
  case eventsKeyLe => exact hinv.eventsKeyLe
  case eventsKeyId => exact hinv.eventsKeyId
  case eventsTotalLt => exact hinv.eventsTotalLt
  case conservation => exact hinv.conservation
  case capOk => exact hinv.capOk
  case ticketsKeyLe =>
    intro kv hkv
    rcases hmemIns kv hkv with h | h
    · have := hinv.ticketsKeyLe _ hmem
      simp [h]
      simp at this
      omega
    · exact hinv.ticketsKeyLe kv h.1
  case ticketsKeyId =>
    intro kv hkv
    rcases hmemIns kv hkv with h | h
    · simp [h, htid]
    · exact hinv.ticketsKeyId kv h.1
  case ticketsCode =>
    intro kv hkv
    rcases hmemIns kv hkv with h | h
    · have := hinv.ticketsCode _ hmem
      simp at this
      simp [h, this]
    · exact hinv.ticketsCode kv h.1
  case ticketsEvent =>
    intro kv hkv
    rcases hmemIns kv hkv with h | h
    · have := hinv.ticketsEvent _ hmem
      simp at this
      simp [h]
      exact this
    · exact hinv.ticketsEvent kv h.1
  case purchasesKeyLe => exact hinv.purchasesKeyLe
  case purchasesEvent => exact hinv.purchasesEvent
  case countEq => exact hinv.countEq
  case purchaseLen => exact hinv.purchaseLen
  case purchaseOwn =>
    intro kv hkv tid htidmem
    obtain ⟨t, hlt, hown, hevt, htime⟩ := hinv.purchaseOwn kv hkv tid htidmem
    rw [lookup_insertKV]
    by_cases hteq : tid = ticket_id
    · subst hteq
      have ht : t = ticket := by
        rw [hlt] at hl
        exact (Option.some.injEq _ _ ▸ hl)
      subst ht
      exact ⟨{ t with is_used := true }, by simp, hown, hevt, htime⟩
    · exact ⟨t, by simp [hteq, hlt], hown, hevt, htime⟩
  case purchaseTidLe => exact hinv.purchaseTidLe
  case purchaseNodup => exact hinv.purchaseNodup
  case purchaseDisjoint => exact hinv.purchaseDisjoint
  case keysNodupE => exact hinv.keysNodupE
  case keysNodupT =>
    rw [keys_insertKV_of_mem _ hkeys]
    exact hinv.keysNodupT
  case keysNodupP => exact hinv.keysNodupP

theorem inv_purchase {s : State} (hinv : Inv s) (caller : String)
    (now event_id quantity : Nat) :
    Inv (purchase_tickets caller now event_id quantity s).2 := by
  unfold purchase_tickets
  split
  · exact hinv
  rename_i event hl
  split
  · exact hinv
  rename_i hact
  split
  · exact hinv
  rename_i hns
  split
  · exact hinv
  rename_i hne
  split
  · exact hinv
  rename_i hav
  simp only []
  split
  · exact hinv
  rename_i hcap
  simp only []
  have hmem := mem_of_lookup hl
  have heid : event.id = event_id := by
    have := hinv.eventsKeyId _ hmem
    simpa using this
  have htotlt : event.total_tickets < 2 ^ 32 := by
    have := hinv.eventsTotalLt _ hmem
    simpa using this
  have hcons : event.available_tickets + eventSold s.purchases event_id =
      event.total_tickets := by
    have := hinv.conservation _ hmem
    simpa using this
  have hcureq := hinv.countEq caller event_id
  have hule := userEventSold_le_eventSold s.purchases caller event_id
  have hnowrap : lookup0 s.userEventPurchases (caller, event_id) + quantity <
      2 ^ 32 := by omega
  have hmodeq : (lookup0 s.userEventPurchases (caller, event_id) + quantity) %
      2 ^ 32 = lookup0 s.userEventPurchases (caller, event_id) + quantity :=
    Nat.mod_eq_of_lt hnowrap
  have hcaple : lookup0 s.userEventPurchases (caller, event_id) + quantity ≤
      event.max_tickets_per_user := by
    rw [hmodeq] at hcap
    omega
  have hmint := mintLoop_eq caller now event_id quantity s.tickets
    s.ticketCounter hinv.ticketsKeyLe
  have hpfresh : ∀ kv ∈ s.purchases, kv.1 ≠ s.purchaseCounter + 1 := by
    intro kv hkv
    have := hinv.purchasesKeyLe kv hkv
    omega
  have htfresh : ∀ kv ∈ s.tickets, kv.1 ≠ s.ticketCounter + 1 := by
    intro kv hkv
    have := hinv.ticketsKeyLe kv hkv
    omega
  rw [hmint, insertKV_of_fresh _ hpfresh]
  simp only []
  have hmemInsE : ∀ kv ∈ insertKV s.events event_id
      ({ event with available_tickets := event.available_tickets - quantity }),
      kv = (event_id,
          ({ event with available_tickets :=
              event.available_tickets - quantity } : Event)) ∨
        (kv ∈ s.events ∧ kv.1 ≠ event_id) :=
    fun kv hkv => mem_insertKV hinv.keysNodupE hkv
  constructor
  case eventsKeyLe =>
    intro kv hkv
    rcases hmemInsE kv hkv with h | h
    · have := hinv.eventsKeyLe _ hmem
      simp [h]
      simp at this
      omega
    · exact hinv.eventsKeyLe kv h.1
  case eventsKeyId =>
    intro kv hkv
    rcases hmemInsE kv hkv with h | h
    · simp [h, heid]
    · exact hinv.eventsKeyId kv h.1
  case eventsTotalLt =>
    intro kv hkv
    rcases hmemInsE kv hkv with h | h
    · simp [h]
      omega
    · exact hinv.eventsTotalLt kv h.1
  case conservation =>
    intro kv hkv
    rcases hmemInsE kv hkv with h | h
    · rw [h]
      rw [eventSold_append]
      simp
      omega
    · rw [eventSold_append]
      have hold := hinv.conservation kv h.1
      have : ¬(event_id = kv.1) := fun hh => h.2 hh.symm
      simp [this]
      omega
  case capOk =>
    intro u kv hkv
    rcases hmemInsE kv hkv with h | h
    · rw [h]
      rw [userEventSold_append]
      simp only []
      by_cases hu : caller = u
      · subst hu
        have hcnt := hinv.capOk caller _ hmem
        simp at hcnt
        simp
        omega
      · have hcnt := hinv.capOk u _ hmem
        simp at hcnt
        simp [hu]
        omega
    · rw [userEventSold_append]
      have hold := hinv.capOk u kv h.1
      have hne' : ¬(event_id = kv.1) := fun hh => h.2 hh.symm
      simp [hne']
      omega
  case ticketsKeyLe =>
    intro kv hkv
    simp only []
    rcases List.mem_append.mp hkv with h | h
    · have := hinv.ticketsKeyLe kv h
      omega
    · simp only [List.mem_map, List.mem_range] at h
      obtain ⟨i, hi, hkveq⟩ := h
      rw [← hkveq]
      simp
      omega
  case ticketsKeyId =>
    intro kv hkv
    rcases List.mem_append.mp hkv with h | h
    · exact hinv.ticketsKeyId kv h
    · simp only [List.mem_map, List.mem_range] at h
      obtain ⟨i, hi, hkveq⟩ := h
      rw [← hkveq]
      simp [mkTicket]
  case ticketsCode =>
    intro kv hkv
    rcases List.mem_append.mp hkv with h | h
    · exact hinv.ticketsCode kv h
    · simp only [List.mem_map, List.mem_range] at h
      obtain ⟨i, hi, hkveq⟩ := h
      rw [← hkveq]
      simp [mkTicket]
  case ticketsEvent =>
    intro kv hkv
    rcases List.mem_append.mp hkv with h | h
    · obtain ⟨ev, hev⟩ := hinv.ticketsEvent kv h
      rw [lookup_insertKV]
      by_cases he : (kv.2 : Ticket).event_id = event_id
      · exact ⟨{ event with available_tickets :=
          event.available_tickets - quantity }, by simp [he]⟩
      · exact ⟨ev, by simp [he, hev]⟩
    · simp only [List.mem_map, List.mem_range] at h
      obtain ⟨i, hi, hkveq⟩ := h
      rw [← hkveq]
      rw [lookup_insertKV]
      exact ⟨{ event with available_tickets :=
        event.available_tickets - quantity }, by simp [mkTicket]⟩
  case purchasesKeyLe =>
    intro kv hkv
    simp only []
    rcases List.mem_append.mp hkv with h | h
    · have := hinv.purchasesKeyLe kv h
      omega
    · simp at h
      simp [h]
  case purchasesEvent =>
    intro kv hkv
    rcases List.mem_append.mp hkv with h | h
    · obtain ⟨ev, hev⟩ := hinv.purchasesEvent kv h
      rw [lookup_insertKV]
      by_cases he : (kv.2 : Purchase).event_id = event_id
      · exact ⟨{ event with available_tickets :=
          event.available_tickets - quantity }, by simp [he]⟩
      · exact ⟨ev, by simp [he, hev]⟩
    · simp at h
      rw [lookup_insertKV]
      exact ⟨{ event with available_tickets :=
        event.available_tickets - quantity }, by simp [h]⟩
  case countEq =>
    intro u e
    rw [userEventSold_append]
    simp only [lookup0, lookup_insertKV]
    by_cases hue : (u, e) = ((caller, event_id) : Principal × Nat)
    · have hu : u = caller := congrArg Prod.fst hue
      have he : e = event_id := congrArg Prod.snd hue
      subst hu
      subst he
      simp [hmodeq]
      have := hinv.countEq u e
      simp [lookup0] at this
      omega
    · have hif : ¬(caller = u ∧ event_id = e) := by
        intro hh
        exact hue (by simp [hh.1.symm, hh.2.symm])
      simp [hue, hif]
      have := hinv.countEq u e
      simp [lookup0] at this
      omega
  case purchaseLen =>
    intro kv hkv
    rcases List.mem_append.mp hkv with h | h
    · exact hinv.purchaseLen kv h
    · simp at h
      simp [h]
  case purchaseOwn =>
    intro kv hkv tid htm
    rcases List.mem_append.mp hkv with h | h
    · obtain ⟨t, hlt, hown, hevt, htime⟩ := hinv.purchaseOwn kv h tid htm
      exact ⟨t, lookup_append_left hlt, hown, hevt, htime⟩
    · simp at h
      rw [h] at htm
      simp only [List.mem_map, List.mem_range] at htm
      obtain ⟨i, hi, htideq⟩ := htm
      have hnone : lookup s.tickets tid = none := by
        apply lookup_eq_none_of_forall
        intro kv' hkv'
        have := hinv.ticketsKeyLe kv' hkv'
        omega
      rw [lookup_append_right (fun kv' hkv' => by
        have := hinv.ticketsKeyLe kv' hkv'
        omega)]
      rw [← htideq]
      rw [lookup_range_map _ _ _ _ (by omega) (by omega)]
      exact ⟨_, rfl, by simp [h, mkTicket]⟩
  case purchaseTidLe =>
    intro kv hkv tid htm
    simp only []
    rcases List.mem_append.mp hkv with h | h
    · have := hinv.purchaseTidLe kv h tid htm
      omega
    · simp at h
      rw [h] at htm
      simp only [List.mem_map, List.mem_range] at htm
      obtain ⟨i, hi, htideq⟩ := htm
      omega
  case purchaseNodup =>
    intro kv hkv
    rcases List.mem_append.mp hkv with h | h
    · exact hinv.purchaseNodup kv h
    · simp at h
      simp [h]
      refine List.Nodup.map ?_ (List.nodup_range quantity)
      intro a b hab
      simp only [] at hab
      omega
  case purchaseDisjoint =>
    intro kv kv' hkv hkv' hne tid htid
    rcases List.mem_append.mp hkv with h | h <;>
      rcases List.mem_append.mp hkv' with h' | h'
    · exact hinv.purchaseDisjoint kv kv' h h' hne tid htid
    · have hle := hinv.purchaseTidLe kv h tid htid
      simp at h'
      rw [h']
      intro hin
      simp only [List.mem_map, List.mem_range] at hin
      obtain ⟨i, hi, hideq⟩ := hin
      omega
    · simp at h
      rw [h] at htid
      simp only [List.mem_map, List.mem_range] at htid
      obtain ⟨i, hi, hideq⟩ := htid
      intro hin
      have := hinv.purchaseTidLe kv' h' tid hin
      omega
    · simp at h h'
      exact absurd (by rw [h, h']) hne
  case keysNodupE =>
    have hkeys : event_id ∈ s.events.map Prod.fst :=
      List.mem_map_of_mem Prod.fst hmem
    rw [keys_insertKV_of_mem _ hkeys]
    exact hinv.keysNodupE
  case keysNodupT =>
    rw [List.map_append]
    refine List.Nodup.append hinv.keysNodupT ?_ ?_
    · rw [List.map_map]
      refine List.Nodup.map ?_ (List.nodup_range quantity)
      intro a b hab
      simp [Function.comp] at hab
      omega
    · intro a ha hb
      simp only [List.mem_map] at ha
      obtain ⟨kv, hkv, hkveq⟩ := ha
      have hle := hinv.ticketsKeyLe kv hkv
      rw [List.map_map] at hb
      simp only [List.mem_map, List.mem_range, Function.comp] at hb
      obtain ⟨i, hi, hieq⟩ := hb
      omega
  case keysNodupP =>
    exact nodup_keys_append _ hinv.keysNodupP hpfresh

theorem inv_step {s s' : State} (hinv : Inv s) (h : Step s s') : Inv s' := by
  cases h with
  | createEvent caller name description venue date total_tickets price_icp
      max_tickets_per_user sale_start_time sale_end_time s hdate htot hprice
      hmax hstart hend =>
      exact inv_create hinv _ _ _ _ _ _ _ _ _ _ htot
  | purchaseTickets caller now event_id quantity s hnow heid hq =>
      exact inv_purchase hinv _ _ _ _
  | useTicket caller ticket_id code s htid =>
      exact inv_use hinv _ _ _
  | deactivateEvent caller event_id s heid =>
      exact inv_deactivate hinv _ _

/-- Every reachable state satisfies the master invariant. -/
theorem reachable_inv {s : State} (h : Reachable s) : Inv s := by
  induction h with
  | init => exact inv_init
  | step _ hstep ih => exact inv_step ih hstep

/-! ### Result characterizations of `purchase_tickets` and `use_ticket` -/

theorem purchase_eq_notFound {s : State} {caller : Principal}
    {now event_id quantity : Nat} (hl : lookup s.events event_id = none) :
    purchase_tickets caller now event_id quantity s =
      (Except.error TicketingError.EventNotFound, s) := by
  unfold purchase_tickets
  split
  · rfl
  rename_i event heq
  rw [hl] at heq
  simp at heq

theorem purchase_eq_inactive {s : State} {caller : Principal}
    {now event_id quantity : Nat} {event : Event}
    (hl : lookup s.events event_id = some event)
    (h : event.is_active = false) :
    purchase_tickets caller now event_id quantity s =
      (Except.error TicketingError.EventInactive, s) := by
  unfold purchase_tickets
  split
  · rename_i heq
    rw [hl] at heq
    simp at heq
  rename_i event' heq
  rw [hl] at heq
  have he := Option.some.inj heq
  subst he
  rw [if_pos h]

theorem purchase_eq_notStarted {s : State} {caller : Principal}
    {now event_id quantity : Nat} {event : Event}
    (hl : lookup s.events event_id = some event)
    (hact : event.is_active = true) (h : now < event.sale_start_time) :
    purchase_tickets caller now event_id quantity s =
      (Except.error TicketingError.SaleNotStarted, s) := by
  unfold purchase_tickets
  split
  · rename_i heq
    rw [hl] at heq
    simp at heq
  rename_i event' heq
  rw [hl] at heq
  have he := Option.some.inj heq
  subst he
  rw [if_neg (by simp [hact]), if_pos h]

theorem purchase_eq_saleEnded {s : State} {caller : Principal}
    {now event_id quantity : Nat} {event : Event}
    (hl : lookup s.events event_id = some event)
    (hact : event.is_active = true) (hns : ¬now < event.sale_start_time)
    (h : event.sale_end_time < now) :
    purchase_tickets caller now event_id quantity s =
      (Except.error TicketingError.SaleEnded, s) := by
  unfold purchase_tickets
  split
  · rename_i heq
    rw [hl] at heq
    simp at heq
  rename_i event' heq
  rw [hl] at heq
  have he := Option.some.inj heq
  subst he
  rw [if_neg (by simp [hact]), if_neg hns, if_pos h]

theorem purchase_eq_insufficient {s : State} {caller : Principal}
    {now event_id quantity : Nat} {event : Event}
    (hl : lookup s.events event_id = some event)
    (hact : event.is_active = true) (hns : ¬now < event.sale_start_time)
    (hne : ¬event.sale_end_time < now)
    (h : event.available_tickets < quantity) :
    purchase_tickets caller now event_id quantity s =
      (Except.error TicketingError.InsufficientTickets, s) := by
  unfold purchase_tickets
  split
  · rename_i heq
    rw [hl] at heq
    simp at heq
  rename_i event' heq
  rw [hl] at heq
  have he := Option.some.inj heq
  subst he
  rw [if_neg (by simp [hact]), if_neg hns, if_neg hne, if_pos h]

theorem purchase_eq_exceeds {s : State} {caller : Principal}
    {now event_id quantity : Nat} {event : Event}
    (hl : lookup s.events event_id = some event)
    (hact : event.is_active = true) (hns : ¬now < event.sale_start_time)
    (hne : ¬event.sale_end_time < now)
    (hav : ¬event.available_tickets < quantity)
    (h : event.max_tickets_per_user <
      (lookup0 s.userEventPurchases (caller, event_id) + quantity) % 2 ^ 32) :
    purchase_tickets caller now event_id quantity s =
      (Except.error TicketingError.ExceedsMaxTicketsPerUser, s) := by
  unfold purchase_tickets
  split
  · rename_i heq
    rw [hl] at heq
    simp at heq
  rename_i event' heq
  rw [hl] at heq
  have he := Option.some.inj heq
  subst he
  rw [if_neg (by simp [hact]), if_neg hns, if_neg hne, if_neg hav]
  simp only []
  rw [if_pos h]

theorem purchase_eq_ok {s : State} {caller : Principal}
    {now event_id quantity : Nat} {event : Event}
    (hl : lookup s.events event_id = some event)
    (hact : event.is_active = true) (hns : ¬now < event.sale_start_time)
    (hne : ¬event.sale_end_time < now)
    (hav : ¬event.available_tickets < quantity)
    (hcap : ¬event.max_tickets_per_user <
      (lookup0 s.userEventPurchases (caller, event_id) + quantity) % 2 ^ 32) :
    purchase_tickets caller now event_id quantity s =
      (Except.ok (purchaseRecord caller now event_id quantity s event),
        purchaseSuccessState caller now event_id quantity s event) := by
  unfold purchase_tickets
  split
  · rename_i heq
    rw [hl] at heq
    simp at heq
  rename_i event' heq
  rw [hl] at heq
  have he := Option.some.inj heq
  subst he
  rw [if_neg (by simp [hact]), if_neg hns, if_neg hne, if_neg hav]
  simp only []
  rw [if_neg hcap]
  rfl

/-- Every `purchase_tickets` call either fails leaving the state unchanged or
succeeds with the characterized record and successor state. -/
theorem purchase_cases (caller : Principal) (now event_id quantity : Nat)
    (s : State) :
    (∃ e, purchase_tickets caller now event_id quantity s =
      (Except.error e, s)) ∨
    (∃ event, lookup s.events event_id = some event ∧
      event.is_active = true ∧ ¬now < event.sale_start_time ∧
      ¬event.sale_end_time < now ∧ ¬event.available_tickets < quantity ∧
      ¬event.max_tickets_per_user <
        (lookup0 s.userEventPurchases (caller, event_id) + quantity) % 2 ^ 32 ∧
      purchase_tickets caller now event_id quantity s =
        (Except.ok (purchaseRecord caller now event_id quantity s event),
          purchaseSuccessState caller now event_id quantity s event)) := by
  cases hl : lookup s.events event_id with
  | none => exact Or.inl ⟨_, purchase_eq_notFound hl⟩
  | some event =>
    by_cases hact : event.is_active = false
    · exact Or.inl ⟨_, purchase_eq_inactive hl hact⟩
    have hact' : event.is_active = true := by
      cases hb : event.is_active
      · exact absurd hb hact
      · rfl
    by_cases hns : now < event.sale_start_time
    · exact Or.inl ⟨_, purchase_eq_notStarted hl hact' hns⟩
    by_cases hne : event.sale_end_time < now
    · exact Or.inl ⟨_, purchase_eq_saleEnded hl hact' hns hne⟩
    by_cases hav : event.available_tickets < quantity
    · exact Or.inl ⟨_, purchase_eq_insufficient hl hact' hns hne hav⟩
    by_cases hcap : event.max_tickets_per_user <
      (lookup0 s.userEventPurchases (caller, event_id) + quantity) % 2 ^ 32
    · exact Or.inl ⟨_, purchase_eq_exceeds hl hact' hns hne hav hcap⟩
    · exact Or.inr ⟨event, rfl, hact', hns, hne, hav, hcap,
        purchase_eq_ok hl hact' hns hne hav hcap⟩

theorem use_eq_notFound {s : State} {caller : Principal} {ticket_id : Nat}
    {code : String} (hl : lookup s.tickets ticket_id = none) :
    use_ticket caller ticket_id code s =
      (Except.error TicketingError.TicketNotFound, s) := by
  unfold use_ticket
  split
  · rfl
  rename_i ticket heq
  rw [hl] at heq
  simp at heq

theorem use_eq_badCode {s : State} {caller : Principal} {ticket_id : Nat}
    {code : String} {ticket : Ticket}
    (hl : lookup s.tickets ticket_id = some ticket)
    (h : ticket.verification_code ≠ code) :
    use_ticket caller ticket_id code s =
      (Except.error TicketingError.InvalidVerificationCode, s) := by
  unfold use_ticket
  split
  · rename_i heq
    rw [hl] at heq
    simp at heq
  rename_i ticket' heq
  rw [hl] at heq
  have he := Option.some.inj heq
  subst he
  rw [if_pos h]

theorem use_eq_alreadyUsed {s : State} {caller : Principal} {ticket_id : Nat}
    {code : String} {ticket : Ticket}
    (hl : lookup s.tickets ticket_id = some ticket)
    (hcode : ticket.verification_code = code) (h : ticket.is_used = true) :
    use_ticket caller ticket_id code s =
      (Except.error TicketingError.AlreadyUsed, s) := by
  unfold use_ticket
  split
  · rename_i heq
    rw [hl] at heq
    simp at heq
  rename_i ticket' heq
  rw [hl] at heq
  have he := Option.some.inj heq
  subst he
  rw [if_neg (by simp [hcode]), if_pos h]

theorem use_eq_unauthorized {s : State} {caller : Principal} {ticket_id : Nat}
    {code : String} {ticket : Ticket} {event : Event}
    (hl : lookup s.tickets ticket_id = some ticket)
    (hcode : ticket.verification_code = code) (hused : ticket.is_used = false)
    (hev : lookup s.events ticket.event_id = some event)
    (h : caller ≠ event.organizer) :
    use_ticket caller ticket_id code s =
      (Except.error TicketingError.Unauthorized, s) := by
  unfold use_ticket
  split
  · rename_i heq
    rw [hl] at heq
    simp at heq
  rename_i ticket' heq
  rw [hl] at heq
  have he := Option.some.inj heq
  subst he
  rw [if_neg (by simp [hcode]), if_neg (by simp [hused])]
  split
  · rename_i heq2
    rw [hev] at heq2
    simp at heq2
  rename_i event' heq2
  rw [hev] at heq2
  have he2 := Option.some.inj heq2
  subst he2
  rw [if_pos h]

theorem use_eq_ok {s : State} {caller : Principal} {ticket_id : Nat}
    {code : String} {ticket : Ticket} {event : Event}
    (hl : lookup s.tickets ticket_id = some ticket)
    (hcode : ticket.verification_code = code) (hused : ticket.is_used = false)
    (hev : lookup s.events ticket.event_id = some event)
    (h : caller = event.organizer) :
    use_ticket caller ticket_id code s =
      (Except.ok (), useSuccessState s ticket_id ticket) := by
  unfold use_ticket
  split
  · rename_i heq
    rw [hl] at heq
    simp at heq
  rename_i ticket' heq
  rw [hl] at heq
  have he := Option.some.inj heq
  subst he
  rw [if_neg (by simp [hcode]), if_neg (by simp [hused])]
  split
  · rename_i heq2
    rw [hev] at heq2
    simp at heq2
  rename_i event' heq2
  rw [hev] at heq2
  have he2 := Option.some.inj heq2
  subst he2
  rw [if_neg (by simp [h])]
  rfl

/-- Every `use_ticket` call either fails leaving the state unchanged or flips
exactly the target ticket's `is_used` flag. -/
theorem use_cases (caller : Principal) (ticket_id : Nat) (code : String)
    (s : State) :
    (∃ e, use_ticket caller ticket_id code s = (Except.error e, s)) ∨
    (∃ ticket, lookup s.tickets ticket_id = some ticket ∧
      ticket.is_used = false ∧ ticket.verification_code = code ∧
      use_ticket caller ticket_id code s =
        (Except.ok (), useSuccessState s ticket_id ticket)) := by
  cases hl : lookup s.tickets ticket_id with
  | none => exact Or.inl ⟨_, use_eq_notFound hl⟩
  | some ticket =>
    by_cases hcode : ticket.verification_code = code
    · by_cases hused : ticket.is_used = true
      · exact Or.inl ⟨_, use_eq_alreadyUsed hl hcode hused⟩
      · have hused' : ticket.is_used = false := by
          cases hb : ticket.is_used
          · rfl
          · exact absurd hb hused
        cases hev : lookup s.events ticket.event_id with
        | none =>
            refine Or.inl ⟨TicketingError.EventNotFound, ?_⟩
            unfold use_ticket
            split
            · rename_i heq
              rw [hl] at heq
              simp at heq
            rename_i ticket' heq
            rw [hl] at heq
            have he := Option.some.inj heq
            subst he
            rw [if_neg (by simp [hcode]), if_neg (by simp [hused'])]
            split
            · rfl
            rename_i event' heq2
            rw [hev] at heq2
            simp at heq2
        | some event =>
            by_cases hauth : caller = event.organizer
            · exact Or.inr ⟨ticket, rfl, hused', hcode,
                use_eq_ok hl hcode hused' hev hauth⟩
            · exact Or.inl ⟨_, use_eq_unauthorized hl hcode hused' hev hauth⟩
    · exact Or.inl ⟨_, use_eq_badCode hl hcode⟩

/-! ### Reachability of the concrete scenario states -/

theorem reachable_s1 : Reachable s1 :=
  Reachable.step Reachable.init
    (Step.createEvent "org" "n" "d" "v" 5 10 100 4 0 100 initState
      (by norm_num) (by norm_num) (by norm_num) (by norm_num) (by norm_num)
      (by norm_num))

theorem reachable_s2 : Reachable s2 :=
  Reachable.step reachable_s1
    (Step.purchaseTickets "bob" 1 1 3 s1 (by norm_num) (by norm_num)
      (by norm_num))

theorem reachable_s3 : Reachable s3 :=
  Reachable.step reachable_s2
    (Step.useTicket "org" 1 "00000001-00000001" s2 (by norm_num))

theorem reachable_s4 : Reachable s4 :=
  Reachable.step reachable_s3
    (Step.purchaseTickets "bob" 2 1 1 s3 (by norm_num) (by norm_num)
      (by norm_num))

theorem stepStar_s3_s4 : StepStar s3 s4 :=
  StepStar.tail (StepStar.refl s3)
    (Step.purchaseTickets "bob" 2 1 1 s3 (by norm_num) (by norm_num)
      (by norm_num))

theorem reachable_sZero : Reachable sZero :=
  Reachable.step reachable_s1
    (Step.purchaseTickets "bob" 1 1 0 s1 (by norm_num) (by norm_num)
      (by norm_num))

theorem reachable_sBig : Reachable sBig :=
  Reachable.step Reachable.init
    (Step.createEvent "org" "n" "d" "v" 0 5 9223372036854775808 5 0 100
      initState (by norm_num) (by norm_num) (by norm_num) (by norm_num)
      (by norm_num) (by norm_num))

/-! ### Monotonicity of `is_used` -/

theorem used_preserved_step {s s' : State} (hinv : Inv s) (hstep : Step s s')
    {ticket_id : Nat} {t : Ticket} (hl : lookup s.tickets ticket_id = some t)
    (hu : t.is_used = true) :
    ∃ t', lookup s'.tickets ticket_id = some t' ∧ t'.is_used = true := by
  cases hstep with
  | createEvent caller name description venue date total_tickets price_icp
      max_tickets_per_user sale_start_time sale_end_time s hdate htot hprice
      hmax hstart hend =>
      exact ⟨t, hl, hu⟩
  | purchaseTickets caller now event_id quantity s hnow heid hq =>
      rcases purchase_cases caller now event_id quantity s with ⟨e, heq⟩ |
        ⟨ev, hlev, _, _, _, _, _, heq⟩
      · rw [heq]
        exact ⟨t, hl, hu⟩
      · rw [heq]
        have hm := mintLoop_eq caller now event_id quantity s.tickets
          s.ticketCounter hinv.ticketsKeyLe
        refine ⟨t, ?_, hu⟩
        simp only [purchaseSuccessState]
        rw [hm]
        exact lookup_append_left hl
  | useTicket caller ticket_id' code s htid =>
      rcases use_cases caller ticket_id' code s with ⟨e, heq⟩ |
        ⟨tk, hltk, hunused, hcode, heq⟩
      · rw [heq]
        exact ⟨t, hl, hu⟩
      · rw [heq]
        by_cases hsame : ticket_id = ticket_id'
        · subst hsame
          rw [hl] at hltk
          have htk := Option.some.inj hltk
          rw [← htk] at hunused
          rw [hu] at hunused
          simp at hunused
        · refine ⟨t, ?_, hu⟩
          simp only [useSuccessState]
          rw [lookup_insertKV]
          simp [hsame, hl]
  | deactivateEvent caller event_id s heid =>
      have hT : (deactivate_event caller event_id s).2.tickets = s.tickets := by
        unfold deactivate_event
        split
        · rfl
        split
        · rfl
        · rfl
      rw [hT]
      exact ⟨t, hl, hu⟩

theorem used_preserved_star {s s' : State} (hs : Reachable s)
    (hstar : StepStar s s') {ticket_id : Nat} {t : Ticket}
    (hl : lookup s.tickets ticket_id = some t) (hu : t.is_used = true) :
    ∃ t', lookup s'.tickets ticket_id = some t' ∧ t'.is_used = true := by
  induction hstar with
  | refl => exact ⟨t, hl, hu⟩
  | tail hprev hstep ih =>
      obtain ⟨t', hl', hu'⟩ := ih
      exact used_preserved_step
        (reachable_inv (Reachable.of_stepStar hs hprev)) hstep hl' hu'

/-! ### The specification claims -/

/-- C1.  No oversell: in every reachable state, every stored event's
`available_tickets` equals `total_tickets` minus the sum of `quantity` over
all `Purchase` records for that event; in particular `available_tickets`
never exceeds `total_tickets` and that sum never exceeds `total_tickets`. -/
theorem no_oversell_invariant {s : State} (hs : Reachable s) {event_id : Nat}
    {ev : Event} (hev : lookup s.events event_id = some ev) :
    ev.available_tickets = ev.total_tickets - eventSold s.purchases event_id ∧
    ev.available_tickets ≤ ev.total_tickets ∧
    eventSold s.purchases event_id ≤ ev.total_tickets := by
  have hinv := reachable_inv hs
  have hc := hinv.conservation _ (mem_of_lookup hev)
  simp at hc
  exact ⟨by omega, by omega, by omega⟩

theorem no_oversell_invariant_witness :
    Reachable s2 ∧ lookup s2.events 1 = some ev2 ∧
      (ev2.available_tickets = ev2.total_tickets - eventSold s2.purchases 1 ∧
        ev2.available_tickets ≤ ev2.total_tickets ∧
        eventSold s2.purchases 1 ≤ ev2.total_tickets) :=
  ⟨reachable_s2, by decide, no_oversell_invariant reachable_s2 (by decide)⟩

/-- C2.  Per-user cap: in every reachable state the stored cumulative count
for each (user, event) pair equals the sum of that user's purchase
quantities for the event and never exceeds the event's
`max_tickets_per_user`; a purchase that would otherwise succeed but whose
quantity pushes the cumulative count past the cap fails with
`ExceedsMaxTicketsPerUser` and leaves the state unchanged. -/
theorem per_user_cap_invariant {s : State} (hs : Reachable s) :
    (∀ (u : Principal) (event_id : Nat),
      lookup0 s.userEventPurchases (u, event_id) =
        userEventSold s.purchases u event_id) ∧
    (∀ (u : Principal) (event_id : Nat) (ev : Event),
      lookup s.events event_id = some ev →
      lookup0 s.userEventPurchases (u, event_id) ≤ ev.max_tickets_per_user) ∧
    (∀ (caller : Principal) (now event_id quantity : Nat) (ev : Event),
      lookup s.events event_id = some ev → ev.is_active = true →
      ¬now < ev.sale_start_time → ¬ev.sale_end_time < now →
      ¬ev.available_tickets < quantity →
      ev.max_tickets_per_user <
        lookup0 s.userEventPurchases (caller, event_id) + quantity →
      purchase_tickets caller now event_id quantity s =
        (Except.error TicketingError.ExceedsMaxTicketsPerUser, s)) := by
  have hinv := reachable_inv hs
  refine ⟨hinv.countEq, ?_, ?_⟩
  · intro u event_id ev hev
    rw [hinv.countEq]
    have := hinv.capOk u _ (mem_of_lookup hev)
    simpa using this
  · intro caller now event_id quantity ev hev hact hns hne hav hgt
    have hmem := mem_of_lookup hev
    have htot := hinv.eventsTotalLt _ hmem
    have hcons := hinv.conservation _ hmem
    simp at htot hcons
    have hcnt := hinv.countEq caller event_id
    have hub := userEventSold_le_eventSold s.purchases caller event_id
    have hnw : lookup0 s.userEventPurchases (caller, event_id) + quantity <
        2 ^ 32 := by omega
    exact purchase_eq_exceeds hev hact hns hne hav
      (by rw [Nat.mod_eq_of_lt hnw]; exact hgt)

theorem per_user_cap_invariant_witness :
    Reachable s2 ∧
    lookup0 s2.userEventPurchases ("bob", 1) =
      userEventSold s2.purchases "bob" 1 ∧
    lookup0 s2.userEventPurchases ("bob", 1) ≤ ev2.max_tickets_per_user ∧
    purchase_tickets "bob" 2 1 2 s2 =
      (Except.error TicketingError.ExceedsMaxTicketsPerUser, s2) :=
  ⟨reachable_s2,
   (per_user_cap_invariant reachable_s2).1 "bob" 1,
   (per_user_cap_invariant reachable_s2).2.1 "bob" 1 ev2 (by decide),
   (per_user_cap_invariant reachable_s2).2.2 "bob" 2 1 2 ev2 (by decide)
     (by decide) (by decide) (by decide) (by decide) (by decide)⟩

/-- C3.  Purchase atomicity on failure: whenever `purchase_tickets` returns
any error, the whole state after the call (events, tickets, purchases,
profiles, cumulative counts, id counters) equals the state before it. -/
theorem purchase_atomic_on_error (caller : Principal)
    (now event_id quantity : Nat) (s : State) (e : TicketingError)
    (herr : (purchase_tickets caller now event_id quantity s).1 =
      Except.error e) :
    (purchase_tickets caller now event_id quantity s).2 = s := by
  rcases purchase_cases caller now event_id quantity s with ⟨e', heq⟩ |
    ⟨ev, _, _, _, _, _, _, heq⟩
  · rw [heq]
  · rw [heq] at herr
    simp at herr

theorem purchase_atomic_on_error_witness :
    (purchase_tickets "bob" 1 1 99 s1).1 =
      Except.error TicketingError.InsufficientTickets ∧
    (purchase_tickets "bob" 1 1 99 s1).2 = s1 :=
  ⟨rfl, purchase_atomic_on_error "bob" 1 1 99 s1
    TicketingError.InsufficientTickets rfl⟩

/-- C4.  Purchase validation order: the checks are applied in the source's
fixed order and the first failing condition determines the error; when all
pass, the call succeeds. -/
theorem purchase_validation_order {s : State} (hs : Reachable s)
    (caller : Principal) (now event_id quantity : Nat) :
    (lookup s.events event_id = none →
      purchase_tickets caller now event_id quantity s =
        (Except.error TicketingError.EventNotFound, s)) ∧
    (∀ ev, lookup s.events event_id = some ev →
      (ev.is_active = false →
        purchase_tickets caller now event_id quantity s =
          (Except.error TicketingError.EventInactive, s)) ∧
      (ev.is_active = true → now < ev.sale_start_time →
        purchase_tickets caller now event_id quantity s =
          (Except.error TicketingError.SaleNotStarted, s)) ∧
      (ev.is_active = true → ¬now < ev.sale_start_time →
        ev.sale_end_time < now →
        purchase_tickets caller now event_id quantity s =
          (Except.error TicketingError.SaleEnded, s)) ∧
      (ev.is_active = true → ¬now < ev.sale_start_time →
        ¬ev.sale_end_time < now → ev.available_tickets < quantity →
        purchase_tickets caller now event_id quantity s =
          (Except.error TicketingError.InsufficientTickets, s)) ∧
      (ev.is_active = true → ¬now < ev.sale_start_time →
        ¬ev.sale_end_time < now → ¬ev.available_tickets < quantity →
        ev.max_tickets_per_user <
          lookup0 s.userEventPurchases (caller, event_id) + quantity →
        purchase_tickets caller now event_id quantity s =
          (Except.error TicketingError.ExceedsMaxTicketsPerUser, s)) ∧
      (ev.is_active = true → ¬now < ev.sale_start_time →
        ¬ev.sale_end_time < now → ¬ev.available_tickets < quantity →
        ¬ev.max_tickets_per_user <
          lookup0 s.userEventPurchases (caller, event_id) + quantity →
        ∃ p, (purchase_tickets caller now event_id quantity s).1 =
          Except.ok p)) := by
  have hinv := reachable_inv hs
  refine ⟨fun h => purchase_eq_notFound h, ?_⟩
  intro ev hev
  refine ⟨fun h => purchase_eq_inactive hev h,
    fun hact h => purchase_eq_notStarted hev hact h,
    fun hact hns h => purchase_eq_saleEnded hev hact hns h,
    fun hact hns hne h => purchase_eq_insufficient hev hact hns hne h,
    ?_, ?_⟩
  · intro hact hns hne hav hgt
    have hmem := mem_of_lookup hev
    have htot := hinv.eventsTotalLt _ hmem
    have hcons := hinv.conservation _ hmem
    simp at htot hcons
    have hcnt := hinv.countEq caller event_id
    have hub := userEventSold_le_eventSold s.purchases caller event_id
    have hnw : lookup0 s.userEventPurchases (caller, event_id) + quantity <
        2 ^ 32 := by omega
    exact purchase_eq_exceeds hev hact hns hne hav
      (by rw [Nat.mod_eq_of_lt hnw]; exact hgt)
  · intro hact hns hne hav hle
    have hmod : (lookup0 s.userEventPurchases (caller, event_id) + quantity) %
        2 ^ 32 ≤ lookup0 s.userEventPurchases (caller, event_id) + quantity :=
      Nat.mod_le _ _
    refine ⟨purchaseRecord caller now event_id quantity s ev, ?_⟩
    rw [purchase_eq_ok hev hact hns hne hav (by omega)]

theorem purchase_validation_order_witness :
    Reachable s1 ∧ lookup s1.events 99 = none ∧
    purchase_tickets "z" 1 99 1 s1 =
      (Except.error TicketingError.EventNotFound, s1) :=
  ⟨reachable_s1, by decide,
   (purchase_validation_order reachable_s1 "z" 1 99 1).1 (by decide)⟩

/-- C5.  Redemption check order and authorization: `use_ticket` checks, in
order, ticket existence, verification-code match, not-already-used, and that
the caller is the owning event's organizer (the buyer has no redemption
rights); in a reachable state the ticket's owning event always exists, and
only when all checks pass does the call succeed. -/
theorem use_ticket_check_order {s : State} (hs : Reachable s)
    (caller : Principal) (ticket_id : Nat) (code : String) :
    (lookup s.tickets ticket_id = none →
      use_ticket caller ticket_id code s =
        (Except.error TicketingError.TicketNotFound, s)) ∧
    (∀ t, lookup s.tickets ticket_id = some t →
      (∃ ev, lookup s.events t.event_id = some ev) ∧
      (t.verification_code ≠ code →
        use_ticket caller ticket_id code s =
          (Except.error TicketingError.InvalidVerificationCode, s)) ∧
      (t.verification_code = code → t.is_used = true →
        use_ticket caller ticket_id code s =
          (Except.error TicketingError.AlreadyUsed, s)) ∧
      (∀ ev, lookup s.events t.event_id = some ev →
        t.verification_code = code → t.is_used = false →
        caller ≠ ev.organizer →
        use_ticket caller ticket_id code s =
          (Except.error TicketingError.Unauthorized, s)) ∧
      (∀ ev, lookup s.events t.event_id = some ev →
        t.verification_code = code → t.is_used = false →
        caller = ev.organizer →
        (use_ticket caller ticket_id code s).1 = Except.ok ())) := by
  have hinv := reachable_inv hs
  refine ⟨fun h => use_eq_notFound h, ?_⟩
  intro t ht
  refine ⟨?_, fun h => use_eq_badCode ht h,
    fun hcode h => use_eq_alreadyUsed ht hcode h,
    fun ev hev hcode hused h => use_eq_unauthorized ht hcode hused hev h,
    fun ev hev hcode hused h => ?_⟩
  · have := hinv.ticketsEvent _ (mem_of_lookup ht)
    simpa using this
  · rw [use_eq_ok ht hcode hused hev h]

theorem use_ticket_check_order_witness :
    Reachable s2 ∧ lookup s2.tickets 1 = some tk1 ∧
    lookup s2.events tk1.event_id = some ev2 ∧
    (use_ticket "org" 1 "00000001-00000001" s2).1 = Except.ok () ∧
    use_ticket "bob" 1 "00000001-00000001" s2 =
      (Except.error TicketingError.Unauthorized, s2) :=
  ⟨reachable_s2, by decide, by decide,
   ((use_ticket_check_order reachable_s2 "org" 1 "00000001-00000001").2 tk1
     (by decide)).2.2.2.2 ev2 (by decide) (by decide) (by decide) (by decide),
   ((use_ticket_check_order reachable_s2 "bob" 1 "00000001-00000001").2 tk1
     (by decide)).2.2.2.1 ev2 (by decide) (by decide) (by decide) (by decide)⟩

/-- C6.  One-way redemption: once a ticket's `is_used` is true it stays true
in every subsequently reachable state, and a `use_ticket` call on an
already-used ticket with the correct code always fails with `AlreadyUsed`
leaving the state unchanged (so any number of retries behaves the same). -/
theorem redemption_one_way :
    (∀ (s s' : State), Reachable s → StepStar s s' →
      ∀ (ticket_id : Nat) (t : Ticket),
        lookup s.tickets ticket_id = some t → t.is_used = true →
        ∃ t', lookup s'.tickets ticket_id = some t' ∧ t'.is_used = true) ∧
    (∀ (s : State) (caller : Principal) (ticket_id : Nat) (t : Ticket),
      lookup s.tickets ticket_id = some t → t.is_used = true →
      use_ticket caller ticket_id t.verification_code s =
        (Except.error TicketingError.AlreadyUsed, s)) :=
  ⟨fun _ _ hs hstar _ _ hl hu => used_preserved_star hs hstar hl hu,
   fun _ _ _ _ hl hu => use_eq_alreadyUsed hl rfl hu⟩

theorem redemption_one_way_witness :
    Reachable s3 ∧ StepStar s3 s4 ∧ lookup s3.tickets 1 = some tk1u ∧
    tk1u.is_used = true ∧
    (∃ t', lookup s4.tickets 1 = some t' ∧ t'.is_used = true) ∧
    use_ticket "org" 1 tk1u.verification_code s3 =
      (Except.error TicketingError.AlreadyUsed, s3) :=
  ⟨reachable_s3, stepStar_s3_s4, by decide, by decide,
   redemption_one_way.1 s3 s4 reachable_s3 stepStar_s3_s4 1 tk1u (by decide)
     (by decide),
   redemption_one_way.2 s3 "org" 1 tk1u (by decide) (by decide)⟩

/-- C7.  Verification-code uniqueness: in every reachable state, tickets
stored under distinct ids have distinct verification codes (the code is
derived injectively from the ticket id). -/
theorem verification_code_unique {s : State} (hs : Reachable s) {a b : Nat}
    {t t' : Ticket} (ha : lookup s.tickets a = some t)
    (hb : lookup s.tickets b = some t') (hab : a ≠ b) :
    t.verification_code ≠ t'.verification_code := by
  have hinv := reachable_inv hs
  have hca := hinv.ticketsCode _ (mem_of_lookup ha)
  have hcb := hinv.ticketsCode _ (mem_of_lookup hb)
  simp at hca hcb
  intro heq
  rw [hca, hcb] at heq
  exact hab (generate_verification_code_inj heq)

theorem verification_code_unique_witness :
    Reachable s2 ∧ lookup s2.tickets 1 = some tk1 ∧
    lookup s2.tickets 2 = some tk2 ∧ (1 : Nat) ≠ 2 ∧
    tk1.verification_code ≠ tk2.verification_code :=
  ⟨reachable_s2, by decide, by decide, by decide,
   @verification_code_unique s2 reachable_s2 1 2 tk1 tk2 (by decide)
     (by decide) (by decide)⟩

/-- C8.  Redemption frame: a successful `use_ticket` call flips exactly the
target ticket's `is_used` flag: the new state differs from the old only in
that one ticket-map entry, the updated ticket differs only in `is_used`,
and every other ticket lookup is unchanged. -/
theorem use_ticket_frame {s : State} {caller : Principal} {ticket_id : Nat}
    {code : String} {t : Ticket} (hl : lookup s.tickets ticket_id = some t)
    (hok : (use_ticket caller ticket_id code s).1 = Except.ok ()) :
    (use_ticket caller ticket_id code s).2 = useSuccessState s ticket_id t ∧
    lookup (use_ticket caller ticket_id code s).2.tickets ticket_id =
      some ({ t with is_used := true }) ∧
    (∀ tid', tid' ≠ ticket_id →
      lookup (use_ticket caller ticket_id code s).2.tickets tid' =
        lookup s.tickets tid') := by
  rcases use_cases caller ticket_id code s with ⟨e, heq⟩ |
    ⟨tk, hltk, hunused, hcode, heq⟩
  · rw [heq] at hok
    simp at hok
  · have htk : tk = t := by
      rw [hl] at hltk
      exact (Option.some.inj hltk).symm
    subst htk
    rw [heq]
    refine ⟨rfl, ?_, ?_⟩
    · simp only [useSuccessState]
      rw [lookup_insertKV]
      simp
    · intro tid' hne
      simp only [useSuccessState]
      rw [lookup_insertKV]
      simp [hne]

theorem use_ticket_frame_witness :
    lookup s2.tickets 1 = some tk1 ∧
    (use_ticket "org" 1 "00000001-00000001" s2).1 = Except.ok () ∧
    (use_ticket "org" 1 "00000001-00000001" s2).2 = useSuccessState s2 1 tk1 ∧
    lookup (use_ticket "org" 1 "00000001-00000001" s2).2.tickets 1 =
      some tk1u ∧
    lookup (use_ticket "org" 1 "00000001-00000001" s2).2.tickets 2 =
      lookup s2.tickets 2 :=
  ⟨by decide, rfl,
   (@use_ticket_frame s2 "org" 1 "00000001-00000001" tk1 (by decide) rfl).1,
   (@use_ticket_frame s2 "org" 1 "00000001-00000001" tk1 (by decide) rfl).2.1,
   (@use_ticket_frame s2 "org" 1 "00000001-00000001" tk1 (by decide)
     rfl).2.2 2 (by decide)⟩

/-- C9 (amended).  Purchase record shape: every stored `Purchase` has
`ticket_ids` of length exactly `quantity` (which may be zero — the code does
not validate positivity), with pairwise-distinct ids disjoint from every
other purchase's ids, each referencing a stored `Ticket` owned by the
purchase's buyer with matching event and purchase time. -/
theorem purchase_record_shape {s : State} (hs : Reachable s) {pid : Nat}
    {p : Purchase} (hp : lookup s.purchases pid = some p) :
    p.ticket_ids.length = p.quantity ∧ p.ticket_ids.Nodup ∧
    (∀ tid ∈ p.ticket_ids, ∃ t, lookup s.tickets tid = some t ∧
      t.owner = p.buyer ∧ t.event_id = p.event_id ∧
      t.purchase_time = p.purchase_time) ∧
    (∀ pid' p', lookup s.purchases pid' = some p' → pid ≠ pid' →
      ∀ tid ∈ p.ticket_ids, tid ∉ p'.ticket_ids) := by
  have hinv := reachable_inv hs
  have hm := mem_of_lookup hp
  refine ⟨?_, ?_, ?_, ?_⟩
  · have := hinv.purchaseLen _ hm
    simpa using this
  · have := hinv.purchaseNodup _ hm
    simpa using this
  · intro tid htid
    exact hinv.purchaseOwn (pid, p) hm tid htid
  · intro pid' p' hp' hne tid htid
    exact hinv.purchaseDisjoint (pid, p) (pid', p') hm (mem_of_lookup hp')
      hne tid htid

theorem purchase_record_shape_witness :
    Reachable s2 ∧ lookup s2.purchases 1 = some p1 ∧
    p1.ticket_ids.length = p1.quantity ∧ p1.ticket_ids.Nodup :=
  ⟨reachable_s2, by decide,
   (@purchase_record_shape s2 reachable_s2 1 p1 (by decide)).1,
   (@purchase_record_shape s2 reachable_s2 1 p1 (by decide)).2.1⟩

/-- C9 counterexample: the code accepts `quantity = 0`, creating and storing
a `Purchase` record with `quantity = 0` in a reachable state, so the claim's
"strictly positive quantity" is false. -/
theorem purchase_record_shape_cex :
    ¬(∀ s : State, Reachable s → ∀ (pid : Nat) (p : Purchase),
        lookup s.purchases pid = some p → 0 < p.quantity) := by
  intro h
  have := h sZero reachable_sZero 1 p0q (by decide)
  simp [p0q] at this

/-- C10 (amended).  Total amount: for every successful `purchase_tickets`
call, the returned and stored purchase's `total_amount` equals
`price_icp * quantity` reduced modulo `2 ^ 64` (Rust `u64` multiplication in
a release build wraps); it is the exact product whenever that product fits
in a `u64`. -/
theorem total_amount_mod (caller : Principal) (now event_id quantity : Nat)
    (s : State) (ev : Event) (p : Purchase)
    (hl : lookup s.events event_id = some ev)
    (hok : (purchase_tickets caller now event_id quantity s).1 =
      Except.ok p) :
    p.total_amount = ev.price_icp * quantity % 2 ^ 64 ∧
    p.quantity = quantity ∧
    lookup (purchase_tickets caller now event_id quantity s).2.purchases
      p.id = some p ∧
    (ev.price_icp * quantity < 2 ^ 64 →
      p.total_amount = ev.price_icp * quantity) := by
  rcases purchase_cases caller now event_id quantity s with ⟨e, heq⟩ |
    ⟨ev', hl', hact, hns, hne, hav, hcap, heq⟩
  · rw [heq] at hok
    simp at hok
  · rw [hl] at hl'
    have hee := Option.some.inj hl'
    subst hee
    rw [heq] at hok
    simp at hok
    rw [heq]
    subst hok
    refine ⟨by simp [purchaseRecord], by simp [purchaseRecord], ?_, ?_⟩
    · simp only [purchaseSuccessState, purchaseRecord]
      rw [lookup_insertKV]
      simp
    · intro hlt
      simp [purchaseRecord]
      omega

theorem total_amount_mod_witness :
    lookup s1.events 1 = some ev1 ∧
    (purchase_tickets "bob" 1 1 3 s1).1 = Except.ok p1 ∧
    p1.total_amount = ev1.price_icp * 3 % 2 ^ 64 ∧
    p1.total_amount = ev1.price_icp * 3 :=
  ⟨by decide, rfl,
   (total_amount_mod "bob" 1 1 3 s1 ev1 p1 (by decide) rfl).1,
   (total_amount_mod "bob" 1 1 3 s1 ev1 p1 (by decide) rfl).2.2.2
     (by decide)⟩

/-- C10 counterexample: with `price_icp = 2 ^ 63` and `quantity = 2` a
reachable successful purchase stores `total_amount = 0`, not the exact
product `2 ^ 64`, so "exact integer arithmetic" is false. -/
theorem total_amount_mod_cex :
    Reachable sBig ∧ lookup sBig.events 1 = some evBig ∧
    (purchase_tickets "bob" 1 1 2 sBig).1 = Except.ok pBig ∧
    pBig.quantity = 2 ∧
    pBig.total_amount ≠ evBig.price_icp * pBig.quantity :=
  ⟨reachable_sBig, by decide, rfl, by decide, by decide⟩

end Ticketing
